import Mathlib

/-!
# HoymilesRadio_NRF: link-layer engine of the nRF24 radio

A shallow embedding of `lib/Hoymiles/src/HoymilesRadio_NRF.cpp`.

* The object state (`_rxBuffer`, `_commandQueue`, `_busyFlag`, ...) is the record `State`.
  Both `std::queue`s are lists whose head is `front()` and whose last element is `back()`;
  `push` appends at the end and `pop` drops the head.
* `_commandQueue` holds `shared_ptr`s: the queue is a list of pointers and the command
  objects live in the heap `State.cmds`.
* The transceiver driver (class `RF24`, an external library) is the record `RF24`; every call
  made on the driver, on a command or on an inverter is also appended to `State.trace`, so
  that the order of the calls can be stated.
* What the environment decides in one cycle (the `EVERY_N_MILLIS` tick, `millis()`, the
  inverter registry and `verifyAllFragments`) is the record `CycleInput`.
* Constants and helpers declared outside this file of the repository are the record `Env`.
* `front()` of an empty `std::queue` is undefined behaviour: `loop` returns `none` there.
-/

namespace HoymilesRadio_NRF

/-- Pointer to a command object (`CommandAbstract*`). -/
abbrev CmdPtr := Nat

/-- Identity of an inverter object (`std::shared_ptr<InverterAbstract>`). -/
abbrev InvId := Nat

/-- The struct `fragment_t`: payload buffer, captured length, receive channel. -/
structure fragment_t where
  fragment : List Nat
  len : Nat
  channel : Nat
deriving DecidableEq, Repr

/-- One entry of the transceiver's receive FIFO: the size the chip reports for it and its
bytes. -/
structure RxPacket where
  dynamicPayloadSize : Nat
  payload : List Nat
deriving DecidableEq, Repr

/-- Modelled from the spec: the Pending Command object (class `CommandAbstract`, declared
outside this file): target address, router address, attempt counter, timeout, and the request
it serialises to; `frameNo` is the missing-fragment indicator when the command stands for a
partial retransmit request. -/
structure Command where
  targetAddress : Nat
  routerAddress : Nat
  sendCount : Nat
  timeout : Nat
  payload : List Nat
  frameNo : Option Nat
deriving DecidableEq, Repr

/-- Modelled from the spec: `CommandAbstract::incrementSendCount`, the attempt counter grows
by one on each physical transmission attempt. -/
def Command.incrementSendCount (c : Command) : Command :=
  { c with sendCount := c.sendCount + 1 }

/-- Modelled from the spec: `CommandAbstract::setRouterAddress`, stamps the local station's
address into the command. -/
def Command.setRouterAddress (c : Command) (addr : Nat) : Command :=
  { c with routerAddress := addr }

/-- Modelled from the spec: `TimeoutHelper` (declared outside this file), an explicit
deadline compared against the monotonic clock read once per cycle. -/
structure TimeoutHelper where
  startMillis : Nat
  timeout : Nat
deriving DecidableEq, Repr

/-- Modelled from the spec: `TimeoutHelper::set`, the wait window starts now. -/
def TimeoutHelper.set (ms now : Nat) : TimeoutHelper :=
  { startMillis := now, timeout := ms }

/-- Modelled from the spec: `TimeoutHelper::occured`, the deadline has elapsed. -/
def TimeoutHelper.occured (t : TimeoutHelper) (now : Nat) : Bool :=
  decide (t.startMillis + t.timeout < now)

/-- Calls made on the collaborators, in program order. -/
inductive Event where
  | begin
  | setDataRate
  | enableDynamicPayloads
  | setCRCLength
  | setAddressWidth (w : Nat)
  | maskIRQ
  | attachInterrupt
  | stopListening
  | startListening
  | setChannel (ch : Nat)
  | setRetries (delay count : Nat)
  | openReadingPipe (pipe id : Nat)
  | openWritingPipe (id : Nat)
  | write (data : List Nat)
  | read (len : Nat)
  | flush_rx
  | setPALevel (level : Nat)
  | incrementSendCount (cmd : CmdPtr)
  | setRouterAddress (cmd : CmdPtr) (addr : Nat)
  | addRxFragment (inv : InvId) (fragment : List Nat) (len : Nat)
  | clearRxFragmentBuffer (inv : InvId)
  | verifyAllFragments (inv : InvId) (cmd : CmdPtr)
deriving DecidableEq, Repr

/-- The transceiver driver object `RF24` as far as this file observes it. -/
structure RF24 where
  chipConnected : Bool
  pVariant : Bool
  listening : Bool
  channel : Nat
  retries : Nat × Nat
  readingPipe : Option Nat
  writingPipe : Option Nat
  paLevel : Nat
  lastWriteOk : Bool
  rxFifo : List RxPacket
deriving DecidableEq, Repr

/-- Driver call `RF24::available`: the receive FIFO holds a payload. -/
def RF24.available (r : RF24) : Bool :=
  !r.rxFifo.isEmpty

/-- Driver call `RF24::getDynamicPayloadSize`: the size reported for the payload at the top
of the receive FIFO. -/
def RF24.getDynamicPayloadSize (r : RF24) : Nat :=
  match r.rxFifo with
  | [] => 0
  | p :: _ => p.dynamicPayloadSize

/-- Driver call `RF24::read(buf, len)`: the first `len` bytes of `buf` are overwritten with
the payload at the top of the receive FIFO, which is consumed. -/
def RF24.read (r : RF24) (buf : List Nat) (len : Nat) : List Nat × RF24 :=
  match r.rxFifo with
  | [] => (buf, r)
  | p :: rest =>
    ((List.range len).map (fun i => p.payload.getD i 0) ++ buf.drop len,
      { r with rxFifo := rest })

/-- Driver call `RF24::flush_rx`: the receive FIFO is emptied. -/
def RF24.flush_rx (r : RF24) : RF24 :=
  { r with rxFifo := [] }

/-- Constants, tables and helpers declared outside this file of the repository. -/
structure Env where
  FRAGMENT_BUFFER_SIZE : Nat
  MAX_RF_PAYLOAD_SIZE : Nat
  FRAGMENT_ALL_MISSING_RESEND : Nat
  FRAGMENT_ALL_MISSING_TIMEOUT : Nat
  FRAGMENT_RETRANSMIT_TIMEOUT : Nat
  FRAGMENT_HANDLE_ERROR : Nat
  _rxChLst : List Nat
  _txChLst : List Nat
  checkFragmentCrc : fragment_t → Bool
  convertSerialToRadioId : Nat → Nat
  getDataPayload : Command → List Nat

/-- What the environment decides during one call of `loop`. -/
structure CycleInput where
  tick : Bool
  now : Nat
  writeOk : Bool
  getInverterBySerial : Nat → Option InvId
  getInverterByFragment : fragment_t → Option InvId
  verifyAllFragments : InvId → Command → Nat

/-- The member variables of `HoymilesRadio_NRF`, the heap of command objects, the inverters'
receive-fragment buffers and the call trace. -/
structure State where
  _isInitialized : Bool
  _isConfigured : Bool
  _packetReceived : Bool
  _busyFlag : Bool
  _dtuSerial : Nat
  _rxChIdx : Nat
  _txChIdx : Nat
  _rxBuffer : List fragment_t
  _commandQueue : List CmdPtr
  _rxTimeout : TimeoutHelper
  cmds : CmdPtr → Command
  invRx : InvId → List (List Nat × Nat)
  interruptAttached : Bool
  radio : RF24
  trace : List Event

/-- A driver call: the driver state changes and the call is logged. -/
def State.call (s : State) (e : Event) (f : RF24 → RF24) : State :=
  { s with radio := f s.radio, trace := s.trace ++ [e] }

/-- The function `HoymilesRadio_NRF::openReadingPipe`. -/
def openReadingPipe (env : Env) (s : State) : State :=
  let id := env.convertSerialToRadioId s._dtuSerial
  s.call (Event.openReadingPipe 1 id) (fun r => { r with readingPipe := some id })

/-- The function `HoymilesRadio_NRF::openWritingPipe`. -/
def openWritingPipe (env : Env) (serial : Nat) (s : State) : State :=
  let id := env.convertSerialToRadioId serial
  s.call (Event.openWritingPipe id) (fun r => { r with writingPipe := some id })

/-- The function `HoymilesRadio_NRF::init`; `new RF24` keeps the hardware facts
(`chipConnected`, `pVariant`, the receive FIFO) of the chip that is wired. -/
def init (env : Env) (s : State) : State :=
  let s := { s with _dtuSerial := 0 }
  let s := s.call Event.begin (fun r => r)
  let s := s.call Event.setDataRate (fun r => r)
  let s := s.call Event.enableDynamicPayloads (fun r => r)
  let s := s.call Event.setCRCLength (fun r => r)
  let s := s.call (Event.setAddressWidth 5) (fun r => r)
  let s := s.call (Event.setRetries 0 0) (fun r => { r with retries := (0, 0) })
  let s := s.call Event.maskIRQ (fun r => r)
  let s := { s with _isConfigured := true }
  if !s.radio.chipConnected then
    s
  else
    let s := { s with interruptAttached := true, trace := s.trace ++ [Event.attachInterrupt] }
    let s := openReadingPipe env s
    let s := s.call Event.startListening (fun r => { r with listening := true })
    { s with _isInitialized := true }

/-- The function `HoymilesRadio_NRF::setPALevel`. -/
def setPALevel (paLevel : Nat) (s : State) : State :=
  if !s._isInitialized then
    s
  else
    s.call (Event.setPALevel paLevel) (fun r => { r with paLevel := paLevel })

/-- Modelled from the spec: `HoymilesRadio::setDtuSerial` of the base class (not in this
file), which stores the local station address. -/
def HoymilesRadio.setDtuSerial (serial : Nat) (s : State) : State :=
  { s with _dtuSerial := serial }

/-- The function `HoymilesRadio_NRF::setDtuSerial`. -/
def setDtuSerial (env : Env) (serial : Nat) (s : State) : State :=
  let s := HoymilesRadio.setDtuSerial serial s
  if !s._isInitialized then
    s
  else
    openReadingPipe env s

/-- The function `HoymilesRadio_NRF::isConnected`. -/
def isConnected (s : State) : Bool :=
  if !s._isInitialized then
    false
  else
    s.radio.chipConnected

/-- The function `HoymilesRadio_NRF::isPVariant`. -/
def isPVariant (s : State) : Bool :=
  if !s._isInitialized then
    false
  else
    s.radio.pVariant

/-- The interrupt handler `HoymilesRadio_NRF::handleIntr`. -/
def handleIntr (s : State) : State :=
  { s with _packetReceived := true }

/-- The function `HoymilesRadio_NRF::getRxNxtChannel`: returns the channel and the state
with the advanced index. The table and the index are declared outside this file: the table
is a list of channel bytes, so `sizeof` is its length, and the index is a natural number. -/
def getRxNxtChannel (env : Env) (s : State) : Nat × State :=
  let idx := s._rxChIdx + 1
  let idx := if idx ≥ env._rxChLst.length then 0 else idx
  (env._rxChLst.getD idx 0, { s with _rxChIdx := idx })

/-- The function `HoymilesRadio_NRF::getTxNxtChannel`. -/
def getTxNxtChannel (env : Env) (s : State) : Nat × State :=
  let idx := s._txChIdx + 1
  let idx := if idx ≥ env._txChLst.length then 0 else idx
  (env._txChLst.getD idx 0, { s with _txChIdx := idx })

/-- The function `HoymilesRadio_NRF::switchRxCh`. -/
def switchRxCh (env : Env) (s : State) : State :=
  let s := s.call Event.stopListening (fun r => { r with listening := false })
  let (ch, s) := getRxNxtChannel env s
  let s := s.call (Event.setChannel ch) (fun r => { r with channel := ch })
  s.call Event.startListening (fun r => { r with listening := true })

/-- The function `HoymilesRadio_NRF::sendEsbPacket`. -/
def sendEsbPacket (env : Env) (inp : CycleInput) (cmd : CmdPtr) (s : State) : State :=
  let s := { s with cmds := Function.update s.cmds cmd (s.cmds cmd).incrementSendCount,
                    trace := s.trace ++ [Event.incrementSendCount cmd] }
  let s := { s with cmds := Function.update s.cmds cmd ((s.cmds cmd).setRouterAddress s._dtuSerial),
                    trace := s.trace ++ [Event.setRouterAddress cmd s._dtuSerial] }
  let s := s.call Event.stopListening (fun r => { r with listening := false })
  let (ch, s) := getTxNxtChannel env s
  let s := s.call (Event.setChannel ch) (fun r => { r with channel := ch })
  let s := openWritingPipe env (s.cmds cmd).targetAddress s
  let s := s.call (Event.setRetries 3 15) (fun r => { r with retries := (3, 15) })
  let s := s.call (Event.write (env.getDataPayload (s.cmds cmd)))
    (fun r => { r with lastWriteOk := inp.writeOk })
  let s := s.call (Event.setRetries 0 0) (fun r => { r with retries := (0, 0) })
  let s := openReadingPipe env s
  let (ch, s) := getRxNxtChannel env s
  let s := s.call (Event.setChannel ch) (fun r => { r with channel := ch })
  let s := s.call Event.startListening (fun r => { r with listening := true })
  let s := { s with _busyFlag := true }
  { s with _rxTimeout := TimeoutHelper.set (s.cmds cmd).timeout inp.now }

/-- Modelled from the spec: `HoymilesRadio::sendLastPacketAgain` (base class, not in this
file): the entire original request of the head command is sent again through the send
protocol. -/
def sendLastPacketAgain (env : Env) (inp : CycleInput) (s : State) : Option State :=
  match s._commandQueue with
  | [] => none
  | cmd :: _ =>
    some (sendEsbPacket env inp cmd
      { s with cmds := Function.update s.cmds cmd { s.cmds cmd with frameNo := none } })

/-- Modelled from the spec: `HoymilesRadio::sendRetransmitPacket` (base class, not in this
file): a partial retransmit request of the head command, parameterised by the
missing-fragment indicator, is sent through the send protocol. -/
def sendRetransmitPacket (env : Env) (inp : CycleInput) (fragment_id : Nat) (s : State) :
    Option State :=
  match s._commandQueue with
  | [] => none
  | cmd :: _ =>
    some (sendEsbPacket env inp cmd
      { s with cmds := Function.update s.cmds cmd { s.cmds cmd with frameNo := some fragment_id } })

/-- Body of the `while (_radio->available())` loop of `loop`: one payload is read into
`_rxBuffer`, or the receive FIFO is flushed. -/
def captureBody (env : Env) (s : State) : State :=
  if !(s._rxBuffer.length > env.FRAGMENT_BUFFER_SIZE) then
    let fragment := List.replicate env.MAX_RF_PAYLOAD_SIZE 0xcc
    let len := s.radio.getDynamicPayloadSize
    let channel := s.radio.channel
    let len := if len > env.MAX_RF_PAYLOAD_SIZE then env.MAX_RF_PAYLOAD_SIZE else len
    let (fragment, radio) := s.radio.read fragment len
    { s with radio := radio, trace := s.trace ++ [Event.read len],
             _rxBuffer := s._rxBuffer ++ [{ fragment := fragment, len := len, channel := channel }] }
  else
    s.call Event.flush_rx RF24.flush_rx

/-- The `while (_radio->available())` loop of `loop`, with fuel. -/
def captureLoop (env : Env) : Nat → State → State
  | 0, s => s
  | fuel + 1, s => if s.radio.available then captureLoop env fuel (captureBody env s) else s

/-- The branch `if (_packetReceived)` of `loop`: drain the driver, clear the flag. Each pass
of the loop consumes at least one payload, so the FIFO depth is enough fuel. -/
def capture (env : Env) (s : State) : State :=
  let s := captureLoop env s.radio.rxFifo.length s
  { s with _packetReceived := false }

/-- The `else` branch of `if (_packetReceived)` in `loop`: parse one buffered fragment. -/
def validate (env : Env) (inp : CycleInput) (s : State) : State :=
  match s._rxBuffer.getLast? with
  | none => s
  | some f =>
    let s :=
      if env.checkFragmentCrc f then
        match inp.getInverterByFragment f with
        | some inv =>
          { s with invRx := Function.update s.invRx inv (s.invRx inv ++ [(f.fragment, f.len)]),
                   trace := s.trace ++ [Event.addRxFragment inv f.fragment f.len] }
        | none => s
      else
        s
    { s with _rxBuffer := s._rxBuffer.tail }

/-- Lines 51 to 93 of `loop`: capture when the interrupt flag is set, else validate. -/
def rxPhase (env : Env) (inp : CycleInput) (s : State) : State :=
  if s._packetReceived then capture env s else validate env inp s

/-- Lines 46 to 49 of `loop`: the `EVERY_N_MILLIS(4)` block. -/
def tickPhase (env : Env) (inp : CycleInput) (s : State) : State :=
  if inp.tick then switchRxCh env s else s

/-- The statements `_commandQueue.pop(); _busyFlag = false;` of `loop`. -/
def popCommand (s : State) : State :=
  { s with _commandQueue := s._commandQueue.tail, _busyFlag := false }

/-- Lines 95 to 153 of `loop`: the command state machine. -/
def commandStep (env : Env) (inp : CycleInput) (s : State) : Option State :=
  if s._busyFlag && s._rxTimeout.occured inp.now then
    match s._commandQueue with
    | [] => none
    | cmd :: _ =>
      match inp.getInverterBySerial (s.cmds cmd).targetAddress with
      | some inv =>
        let verifyResult := inp.verifyAllFragments inv (s.cmds cmd)
        let s := { s with trace := s.trace ++ [Event.verifyAllFragments inv cmd] }
        if verifyResult = env.FRAGMENT_ALL_MISSING_RESEND then
          sendLastPacketAgain env inp s
        else if verifyResult = env.FRAGMENT_ALL_MISSING_TIMEOUT then
          some (popCommand s)
        else if verifyResult = env.FRAGMENT_RETRANSMIT_TIMEOUT then
          some (popCommand s)
        else if verifyResult = env.FRAGMENT_HANDLE_ERROR then
          some (popCommand s)
        else if verifyResult > 0 then
          sendRetransmitPacket env inp verifyResult s
        else
          some (popCommand s)
      | none => some (popCommand s)
  else if !s._busyFlag then
    match s._commandQueue with
    | [] => some s
    | cmd :: _ =>
      match inp.getInverterBySerial (s.cmds cmd).targetAddress with
      | some inv =>
        let s := { s with invRx := Function.update s.invRx inv [],
                          trace := s.trace ++ [Event.clearRxFragmentBuffer inv] }
        some (sendEsbPacket env inp cmd s)
      | none => some { s with _commandQueue := s._commandQueue.tail }
  else
    some s

/-- The function `HoymilesRadio_NRF::loop`. -/
def loop (env : Env) (inp : CycleInput) (s : State) : Option State :=
  if !s._isInitialized then
    some s
  else
    commandStep env inp (rxPhase env inp (tickPhase env inp s))

/-- The command an event is about, if any. -/
def Event.cmd? : Event → Option CmdPtr
  | Event.incrementSendCount p => some p
  | Event.setRouterAddress p _ => some p
  | Event.verifyAllFragments _ p => some p
  | _ => none

/-- The payloads handed to `RF24::write`, in program order: the physical transmissions. -/
def txLog (tr : List Event) : List (List Nat) :=
  tr.filterMap (fun e => match e with
    | Event.write d => some d
    | _ => none)

/-- Events of the receive side: no command is touched and nothing is transmitted. -/
def Event.isRx : Event → Bool
  | Event.stopListening => true
  | Event.startListening => true
  | Event.setChannel _ => true
  | Event.read _ => true
  | Event.flush_rx => true
  | Event.addRxFragment _ _ _ => true
  | _ => false

/-- The state `s2` differs from `s1` on the receive side only: the command state machine's
variables are equal and the calls made in between are receive-side calls. -/
def RxOnly (s1 s2 : State) : Prop :=
  s2._isInitialized = s1._isInitialized ∧ s2._busyFlag = s1._busyFlag ∧
  s2._dtuSerial = s1._dtuSerial ∧ s2._txChIdx = s1._txChIdx ∧
  s2._commandQueue = s1._commandQueue ∧ s2._rxTimeout = s1._rxTimeout ∧
  s2.cmds = s1.cmds ∧ ∃ new, s2.trace = s1.trace ++ new ∧ ∀ e ∈ new, e.isRx = true

/-- The calls `sendEsbPacket` makes for the command `cmd` with object `c` in a state with
local address `dtu` and channel indices `rxIdx`, `txIdx`. -/
def sendTrace (env : Env) (cmd : CmdPtr) (c : Command) (dtu rxIdx txIdx : Nat) : List Event :=
  [Event.incrementSendCount cmd,
   Event.setRouterAddress cmd dtu,
   Event.stopListening,
   Event.setChannel (env._txChLst.getD (if txIdx + 1 ≥ env._txChLst.length then 0 else txIdx + 1) 0),
   Event.openWritingPipe (env.convertSerialToRadioId c.targetAddress),
   Event.setRetries 3 15,
   Event.write (env.getDataPayload ((c.incrementSendCount).setRouterAddress dtu)),
   Event.setRetries 0 0,
   Event.openReadingPipe 1 (env.convertSerialToRadioId dtu),
   Event.setChannel (env._rxChLst.getD (if rxIdx + 1 ≥ env._rxChLst.length then 0 else rxIdx + 1) 0),
   Event.startListening]

/-- A sample environment: buffer bound 4, the result codes and channel tables of the
firmware, a checksum that accepts every fragment. -/
def sampleEnv : Env :=
  { FRAGMENT_BUFFER_SIZE := 4, MAX_RF_PAYLOAD_SIZE := 32,
    FRAGMENT_ALL_MISSING_RESEND := 255, FRAGMENT_ALL_MISSING_TIMEOUT := 254,
    FRAGMENT_RETRANSMIT_TIMEOUT := 253, FRAGMENT_HANDLE_ERROR := 252,
    _rxChLst := [3, 23, 40, 61, 75], _txChLst := [3, 23, 40, 61, 75],
    checkFragmentCrc := fun _ => true, convertSerialToRadioId := fun a => a,
    getDataPayload := fun c => c.payload }

/-- A sample command: target address 7, timeout 10. -/
def sampleCmd : Command :=
  { targetAddress := 7, routerAddress := 0, sendCount := 0, timeout := 10,
    payload := [1, 2], frameNo := none }

/-- A connected, listening transceiver with an empty receive FIFO. -/
def sampleRadio : RF24 :=
  { chipConnected := true, pVariant := true, listening := true, channel := 3, retries := (0, 0),
    readingPipe := some 0, writingPipe := none, paLevel := 0, lastWriteOk := false, rxFifo := [] }

/-- An initialised radio in the Idle state: empty buffer, empty queue, flag clear. -/
def sampleState : State :=
  { _isInitialized := true, _isConfigured := true, _packetReceived := false, _busyFlag := false,
    _dtuSerial := 0, _rxChIdx := 0, _txChIdx := 0, _rxBuffer := [], _commandQueue := [],
    _rxTimeout := { startMillis := 0, timeout := 0 }, cmds := fun _ => sampleCmd,
    invRx := fun _ => [], interruptAttached := true, radio := sampleRadio, trace := [] }

/-- A sample cycle: no tick, time 0, no inverter registered. -/
def sampleInput : CycleInput :=
  { tick := false, now := 0, writeOk := true, getInverterBySerial := fun _ => none,
    getInverterByFragment := fun _ => none, verifyAllFragments := fun _ _ => 0 }

/-- A sample cycle in which every address and every fragment resolves to inverter 0. -/
def resolvedInput : CycleInput :=
  { sampleInput with getInverterBySerial := fun _ => some 0,
                     getInverterByFragment := fun _ => some 0 }

/-- A two-byte payload in the receive FIFO. -/
def samplePacket (n : Nat) : RxPacket :=
  { dynamicPayloadSize := 2, payload := [n, n] }

/-- A captured two-byte fragment. -/
def sampleFragment (n : Nat) : fragment_t :=
  { fragment := [n, n], len := 2, channel := 3 }

/-- Interrupt flag set, empty buffer, six payloads available in the driver. -/
def sixAvailable : State :=
  { sampleState with
      _packetReceived := true,
      radio := { sampleRadio with rxFifo := [samplePacket 1, samplePacket 2, samplePacket 3,
                                             samplePacket 4, samplePacket 5, samplePacket 6] } }

/-- Interrupt flag clear, two fragments buffered: fragment 1 is the oldest. -/
def twoBuffered : State :=
  { sampleState with _rxBuffer := [sampleFragment 1, sampleFragment 2] }

/-- Idle, two commands queued: pointer 0 is the head. -/
def idleQueued : State :=
  { sampleState with _commandQueue := [0, 1] }

/-- Command 0 in flight since time 0 with timeout 10, command 1 waiting behind it. -/
def inFlight : State :=
  { sampleState with _commandQueue := [0, 1], _busyFlag := true,
                     _rxTimeout := { startMillis := 0, timeout := 10 } }

/-- A cycle at time `now` in which every address resolves to inverter 0 and
`verifyAllFragments` returns `v`. -/
def outcomeInput (v now : Nat) : CycleInput :=
  { resolvedInput with now := now, verifyAllFragments := fun _ _ => v }

/-- A cycle at time `now` in which no address resolves. -/
def unresolvedInput (now : Nat) : CycleInput :=
  { sampleInput with now := now }

/-- The verification outcomes on which `loop` removes the command: the three terminal codes
and 0 (success). -/
def Env.terminal (env : Env) (v : Nat) : Prop :=
  v = env.FRAGMENT_ALL_MISSING_TIMEOUT ∨ v = env.FRAGMENT_RETRANSMIT_TIMEOUT ∨
  v = env.FRAGMENT_HANDLE_ERROR ∨ v = 0

instance (env : Env) (v : Nat) : Decidable (env.terminal v) := by
  unfold Env.terminal
  infer_instance

/-- The verification outcomes on which `loop` sends again: `FRAGMENT_ALL_MISSING_RESEND`, and
every non-zero value that is none of the three terminal codes. -/
def Env.retryable (env : Env) (v : Nat) : Prop :=
  v = env.FRAGMENT_ALL_MISSING_RESEND ∨ ¬ env.terminal v

instance (env : Env) (v : Nat) : Decidable (env.retryable v) := by
  unfold Env.retryable
  infer_instance

/-- The code `FRAGMENT_ALL_MISSING_RESEND` is a code of its own: it is none of the three
terminal codes and not 0. -/
def Env.codesDistinct (env : Env) : Prop :=
  env.FRAGMENT_ALL_MISSING_RESEND ≠ env.FRAGMENT_ALL_MISSING_TIMEOUT ∧
  env.FRAGMENT_ALL_MISSING_RESEND ≠ env.FRAGMENT_RETRANSMIT_TIMEOUT ∧
  env.FRAGMENT_ALL_MISSING_RESEND ≠ env.FRAGMENT_HANDLE_ERROR ∧
  env.FRAGMENT_ALL_MISSING_RESEND ≠ 0

instance (env : Env) : Decidable env.codesDistinct := by
  unfold Env.codesDistinct
  infer_instance

/-- The index step shared by `getRxNxtChannel` and `getTxNxtChannel`: one further, or back
to 0 past the last element of a table of `len` channels. -/
def nextIdx (len idx : Nat) : Nat :=
  if idx + 1 ≥ len then 0 else idx + 1

/-- Successive calls of `loop`, one per cycle input; `none` once a cycle is undefined. -/
def runCycles (env : Env) : List CycleInput → State → Option State
  | [], s => some s
  | i :: is, s => (loop env i s).bind (runCycles env is)

/-- Every cycle of the list is a deadline expiration: it runs after the deadline in force,
and the next deadline is the one set at that cycle with timeout `T`. -/
def Expirations (T : Nat) : TimeoutHelper → List CycleInput → Prop
  | _, [] => True
  | t, i :: is => t.occured i.now = true ∧ Expirations T (TimeoutHelper.set T i.now) is

/-- A run of `n` deadline expirations for a command with timeout 10, the `j`-th at time
`11 * (j + 1)` and with verification outcome `outcomes j`, numbered from `k`. -/
def expiries (outcomes : Nat → Nat) : Nat → Nat → List CycleInput
  | 0, _ => []
  | n + 1, k => outcomeInput (outcomes k) (11 * (k + 1)) :: expiries outcomes n (k + 1)

/-- The channels on which the payloads of a trace went out: for each `write`, the channel
set last; `ch` is the channel in force at the start. -/
def txChannels : Nat → List Event → List Nat
  | _, [] => []
  | _, Event.setChannel c :: es => txChannels c es
  | ch, Event.write _ :: es => ch :: txChannels ch es
  | ch, _ :: es => txChannels ch es

/-- The cyclically adjacent entries of a channel table differ. -/
def AdjacentDistinct (l : List Nat) : Prop :=
  ∀ i, i < l.length → l.getD i 0 ≠ l.getD (nextIdx l.length i) 0

instance (l : List Nat) : Decidable (AdjacentDistinct l) := by
  unfold AdjacentDistinct
  infer_instance

/-- An environment whose transmit-channel table has two entries, both channel 40. -/
def dupEnv : Env :=
  { sampleEnv with _txChLst := [40, 40] }

/-- The deadline in force after the cycles of the list, each of which sets it anew with
timeout `T`. -/
def lastDeadline (T : Nat) : TimeoutHelper → List CycleInput → TimeoutHelper
  | t, [] => t
  | _, i :: is => lastDeadline T (TimeoutHelper.set T i.now) is

/-- A cycle in which the `EVERY_N_MILLIS` tick fires and every address resolves. -/
def tickInput : CycleInput :=
  { resolvedInput with tick := true }

/-- The event hands a fragment to an inverter (`addRxFragment`). -/
def Event.isAddRx : Event → Bool
  | Event.addRxFragment _ _ _ => true
  | _ => false

/-- Modelled from the spec: `enqueue(command)` of the base class `HoymilesRadio` (not in this
file): the command object `c`, allocated at `p`, is appended to the transmit queue. -/
def enqueue (p : CmdPtr) (c : Command) (s : State) : State :=
  { s with _commandQueue := s._commandQueue ++ [p], cmds := Function.update s.cmds p c }

/-- A payload arrives in the transceiver's receive FIFO. -/
def receive (p : RxPacket) (s : State) : State :=
  { s with radio := { s.radio with rxFifo := s.radio.rxFifo ++ [p] } }

/-- The states reached from an initial state (Idle, empty queue) by `enqueue` and `loop`
steps, interleaved with interrupts and arriving payloads. -/
inductive Reachable (env : Env) : State → Prop where
  | initial (s : State) (hidle : s._busyFlag = false) (hq : s._commandQueue = []) :
      Reachable env s
  | enqueue (s : State) (p : CmdPtr) (c : Command) (h : Reachable env s) :
      Reachable env (enqueue p c s)
  | loop (s s' : State) (inp : CycleInput) (h : Reachable env s)
      (hstep : loop env inp s = some s') : Reachable env s'
  | handleIntr (s : State) (h : Reachable env s) : Reachable env (handleIntr s)
  | receive (s : State) (p : RxPacket) (h : Reachable env s) : Reachable env (receive p s)

/-- A radio that is wired but not yet initialised. -/
def uninitialised : State :=
  { sampleState with _isInitialized := false, _isConfigured := false,
                     interruptAttached := false,
                     radio := { sampleRadio with listening := false, readingPipe := none } }

/-- An environment whose checksum rejects the fragments that start with byte 2. -/
def crcEnv : Env :=
  { sampleEnv with checkFragmentCrc := fun f => decide (f.fragment.head? ≠ some 2) }

/-- Both channel indices at 4, the last entry of the five-entry sample tables. -/
def atLastChannel : State :=
  { sampleState with _rxChIdx := 4, _txChIdx := 4 }

/-- The fragment the capture step builds from the payload `p` at the top of the receive FIFO
while the driver is on `channel`: the length is clamped to `MAX_RF_PAYLOAD_SIZE`, that many
bytes are read and the rest of the buffer keeps its `0xcc` fill. -/
def capturedFragment (env : Env) (channel : Nat) (p : RxPacket) : fragment_t :=
  let len := if p.dynamicPayloadSize > env.MAX_RF_PAYLOAD_SIZE then env.MAX_RF_PAYLOAD_SIZE
    else p.dynamicPayloadSize
  { fragment := (List.range len).map (fun i => p.payload.getD i 0) ++
      (List.replicate env.MAX_RF_PAYLOAD_SIZE 0xcc).drop len,
    len := len, channel := channel }

/-- Interrupt flag set, one fragment buffered, two payloads available, command 0 in flight. -/
def capturing : State :=
  { inFlight with
      _packetReceived := true, _rxBuffer := [sampleFragment 9],
      radio := { sampleRadio with rxFifo := [samplePacket 1, { dynamicPayloadSize := 40,
                                                               payload := [7] }] } }

/-- The state after one command was enqueued on the Idle sample radio. -/
def oneEnqueued : State :=
  enqueue 0 sampleCmd sampleState

/-- The state after the first cycle on `oneEnqueued` with a resolving registry: the command
has been sent and is in flight. -/
def afterFirstSend : State :=
  (loop sampleEnv resolvedInput oneEnqueued).getD oneEnqueued

/-! ## Frame lemmas -/

theorem captureBody_frame (env : Env) (s : State) :
    ∃ buf radio new, captureBody env s =
      { s with _rxBuffer := buf, radio := radio, trace := s.trace ++ new } ∧
      (∀ e ∈ new, e.isRx = true) := by
  unfold captureBody
  split
  · exact ⟨_, _, [_], rfl, by simp [Event.isRx]⟩
  · exact ⟨s._rxBuffer, _, [_], rfl, by simp [Event.isRx]⟩

theorem captureLoop_frame (env : Env) (n : Nat) (s : State) :
    ∃ buf radio new, captureLoop env n s =
      { s with _rxBuffer := buf, radio := radio, trace := s.trace ++ new } ∧
      (∀ e ∈ new, e.isRx = true) := by
  induction n generalizing s with
  | zero => exact ⟨s._rxBuffer, s.radio, [], by simp [captureLoop], by simp⟩
  | succ n ih =>
    unfold captureLoop
    split
    · obtain ⟨b1, r1, n1, h1, hn1⟩ := captureBody_frame env s
      obtain ⟨b2, r2, n2, h2, hn2⟩ := ih (captureBody env s)
      refine ⟨b2, r2, n1 ++ n2, ?_, ?_⟩
      · rw [h2, h1]; simp
      · intro e he
        rcases List.mem_append.mp he with h | h
        · exact hn1 e h
        · exact hn2 e h
    · exact ⟨s._rxBuffer, s.radio, [], by simp, by simp⟩

theorem RxOnly.refl (s : State) : RxOnly s s :=
  ⟨rfl, rfl, rfl, rfl, rfl, rfl, rfl, [], by simp, by simp⟩

theorem RxOnly.trans {s1 s2 s3 : State} (h12 : RxOnly s1 s2) (h23 : RxOnly s2 s3) :
    RxOnly s1 s3 := by
  obtain ⟨a1, a2, a3, a4, a5, a6, a7, n1, ht1, hn1⟩ := h12
  obtain ⟨b1, b2, b3, b4, b5, b6, b7, n2, ht2, hn2⟩ := h23
  refine ⟨b1.trans a1, b2.trans a2, b3.trans a3, b4.trans a4, b5.trans a5, b6.trans a6,
    b7.trans a7, n1 ++ n2, ?_, ?_⟩
  · rw [ht2, ht1, List.append_assoc]
  · intro e he
    rcases List.mem_append.mp he with h | h
    · exact hn1 e h
    · exact hn2 e h

theorem tickPhase_rxOnly (env : Env) (inp : CycleInput) (s : State) :
    RxOnly s (tickPhase env inp s) := by
  unfold tickPhase
  split
  · refine ⟨rfl, rfl, rfl, rfl, rfl, rfl, rfl,
      [Event.stopListening, Event.setChannel (getRxNxtChannel env s).1, Event.startListening],
      ?_, ?_⟩
    · simp [switchRxCh, getRxNxtChannel, State.call]
    · simp [Event.isRx]
  · exact RxOnly.refl s

theorem capture_rxOnly (env : Env) (s : State) : RxOnly s (capture env s) := by
  obtain ⟨buf, radio, new, h, hn⟩ := captureLoop_frame env s.radio.rxFifo.length s
  unfold capture
  rw [h]
  exact ⟨rfl, rfl, rfl, rfl, rfl, rfl, rfl, new, rfl, hn⟩

theorem validate_rxOnly (env : Env) (inp : CycleInput) (s : State) :
    RxOnly s (validate env inp s) := by
  unfold validate
  split
  · exact RxOnly.refl s
  · split
    · split
      · exact ⟨rfl, rfl, rfl, rfl, rfl, rfl, rfl, [_], rfl, by simp [Event.isRx]⟩
      · exact ⟨rfl, rfl, rfl, rfl, rfl, rfl, rfl, [], by simp, by simp⟩
    · exact ⟨rfl, rfl, rfl, rfl, rfl, rfl, rfl, [], by simp, by simp⟩

theorem rxPhase_rxOnly (env : Env) (inp : CycleInput) (s : State) :
    RxOnly s (rxPhase env inp s) := by
  unfold rxPhase
  split
  · exact capture_rxOnly env s
  · exact validate_rxOnly env inp s

/-- The first two phases of a cycle leave the command state machine's variables alone. -/
theorem phases_rxOnly (env : Env) (inp : CycleInput) (s : State) :
    RxOnly s (rxPhase env inp (tickPhase env inp s)) :=
  (tickPhase_rxOnly env inp s).trans (rxPhase_rxOnly env inp _)

theorem txLog_append (a b : List Event) : txLog (a ++ b) = txLog a ++ txLog b := by
  simp [txLog, List.filterMap_append]

theorem txLog_rx (new : List Event) (h : ∀ e ∈ new, e.isRx = true) : txLog new = [] := by
  induction new with
  | nil => rfl
  | cons e rest ih =>
    have he := h e (List.mem_cons_self _ _)
    have hr := ih (fun x hx => h x (List.mem_cons_of_mem _ hx))
    cases e <;> simp_all [txLog, Event.isRx]

theorem cmd?_rx (e : Event) (h : e.isRx = true) : e.cmd? = none := by
  cases e <;> simp_all [Event.isRx, Event.cmd?]

theorem RxOnly.txLog_eq {s1 s2 : State} (h : RxOnly s1 s2) : txLog s2.trace = txLog s1.trace := by
  obtain ⟨_, _, _, _, _, _, _, new, ht, hn⟩ := h
  rw [ht, txLog_append, txLog_rx new hn, List.append_nil]

/-! ## The send protocol -/

theorem sendEsbPacket_commandQueue (env : Env) (inp : CycleInput) (cmd : CmdPtr) (s : State) :
    (sendEsbPacket env inp cmd s)._commandQueue = s._commandQueue := by
  simp [sendEsbPacket, State.call, openWritingPipe, openReadingPipe, getTxNxtChannel,
    getRxNxtChannel]

theorem sendEsbPacket_busyFlag (env : Env) (inp : CycleInput) (cmd : CmdPtr) (s : State) :
    (sendEsbPacket env inp cmd s)._busyFlag = true := by
  simp [sendEsbPacket, State.call, openWritingPipe, openReadingPipe, getTxNxtChannel,
    getRxNxtChannel]

theorem sendEsbPacket_cmds (env : Env) (inp : CycleInput) (cmd : CmdPtr) (s : State) :
    (sendEsbPacket env inp cmd s).cmds =
      Function.update s.cmds cmd (((s.cmds cmd).incrementSendCount).setRouterAddress s._dtuSerial) := by
  simp [sendEsbPacket, State.call, openWritingPipe, openReadingPipe, getTxNxtChannel,
    getRxNxtChannel]

theorem sendEsbPacket_rxTimeout (env : Env) (inp : CycleInput) (cmd : CmdPtr) (s : State) :
    (sendEsbPacket env inp cmd s)._rxTimeout = TimeoutHelper.set (s.cmds cmd).timeout inp.now := by
  simp [sendEsbPacket, State.call, openWritingPipe, openReadingPipe, getTxNxtChannel,
    getRxNxtChannel, Command.incrementSendCount, Command.setRouterAddress]

theorem sendEsbPacket_trace (env : Env) (inp : CycleInput) (cmd : CmdPtr) (s : State) :
    (sendEsbPacket env inp cmd s).trace =
      s.trace ++ sendTrace env cmd (s.cmds cmd) s._dtuSerial s._rxChIdx s._txChIdx := by
  simp [sendEsbPacket, State.call, openWritingPipe, openReadingPipe, getTxNxtChannel,
    getRxNxtChannel, Command.incrementSendCount, Command.setRouterAddress, sendTrace]

theorem sendEsbPacket_rxChIdx (env : Env) (inp : CycleInput) (cmd : CmdPtr) (s : State) :
    (sendEsbPacket env inp cmd s)._rxChIdx = (getRxNxtChannel env s).2._rxChIdx := by
  simp [sendEsbPacket, State.call, openWritingPipe, openReadingPipe, getTxNxtChannel,
    getRxNxtChannel]

theorem sendEsbPacket_txChIdx (env : Env) (inp : CycleInput) (cmd : CmdPtr) (s : State) :
    (sendEsbPacket env inp cmd s)._txChIdx = (getTxNxtChannel env s).2._txChIdx := by
  simp [sendEsbPacket, State.call, openWritingPipe, openReadingPipe, getTxNxtChannel,
    getRxNxtChannel]

theorem txLog_sendTrace (env : Env) (cmd : CmdPtr) (c : Command) (dtu rxIdx txIdx : Nat) :
    txLog (sendTrace env cmd c dtu rxIdx txIdx) =
      [env.getDataPayload ((c.incrementSendCount).setRouterAddress dtu)] := by
  simp [txLog, sendTrace]

theorem cmd?_sendTrace (env : Env) (cmd : CmdPtr) (c : Command) (dtu rxIdx txIdx : Nat)
    (e : Event) (he : e ∈ sendTrace env cmd c dtu rxIdx txIdx) (p : CmdPtr)
    (hp : e.cmd? = some p) : p = cmd := by
  simp [sendTrace] at he
  rcases he with h | h | h | h | h | h | h | h | h | h | h <;> subst h <;>
    simp_all [Event.cmd?]


/-- What one transmission through the send protocol leaves behind, for a state whose queue
head is `cmd`. -/
theorem sendEsbPacket_head (env : Env) (inp : CycleInput) (cmd : CmdPtr) (s : State)
    (pre : List Event) (s0 : State) (hq : s0._commandQueue = s._commandQueue)
    (hhead : s._commandQueue.head? = some cmd)
    (hc : ∀ p, p ≠ cmd → s0.cmds p = s.cmds p)
    (ht : s0.trace = s.trace ++ pre) (hpre : ∀ e ∈ pre, ∀ p, e.cmd? = some p → p = cmd) :
    ((sendEsbPacket env inp cmd s0)._commandQueue = s._commandQueue ∨
      (sendEsbPacket env inp cmd s0)._commandQueue = s._commandQueue.tail) ∧
    (∀ p, s._commandQueue.head? ≠ some p → (sendEsbPacket env inp cmd s0).cmds p = s.cmds p) ∧
    (∃ new, (sendEsbPacket env inp cmd s0).trace = s.trace ++ new ∧
      ∀ e ∈ new, ∀ p, e.cmd? = some p → s._commandQueue.head? = some p) ∧
    ((sendEsbPacket env inp cmd s0)._busyFlag = true →
      (sendEsbPacket env inp cmd s0)._commandQueue = s._commandQueue ∧ s._commandQueue ≠ []) := by
  refine ⟨Or.inl (by rw [sendEsbPacket_commandQueue, hq]), ?_, ?_, ?_⟩
  · intro p hp
    have hne : p ≠ cmd := fun h => hp (by rw [hhead, h])
    rw [sendEsbPacket_cmds, Function.update_noteq hne]
    exact hc p hne
  · refine ⟨pre ++ sendTrace env cmd (s0.cmds cmd) s0._dtuSerial s0._rxChIdx s0._txChIdx, ?_, ?_⟩
    · rw [sendEsbPacket_trace, ht, List.append_assoc]
    · intro e he p hp
      rw [hhead]
      rcases List.mem_append.mp he with h | h
      · rw [hpre e h p hp]
      · rw [cmd?_sendTrace env cmd _ _ _ _ e h p hp]
  · intro _
    refine ⟨by rw [sendEsbPacket_commandQueue, hq], ?_⟩
    intro h
    rw [h] at hhead
    simp at hhead

theorem popCommand_head (s : State) (pre : List Event) (s0 : State)
    (hq : s0._commandQueue = s._commandQueue) (hc : s0.cmds = s.cmds)
    (ht : s0.trace = s.trace ++ pre)
    (hpre : ∀ e ∈ pre, ∀ p, e.cmd? = some p → s._commandQueue.head? = some p) :
    ((popCommand s0)._commandQueue = s._commandQueue ∨
      (popCommand s0)._commandQueue = s._commandQueue.tail) ∧
    (∀ p, s._commandQueue.head? ≠ some p → (popCommand s0).cmds p = s.cmds p) ∧
    (∃ new, (popCommand s0).trace = s.trace ++ new ∧
      ∀ e ∈ new, ∀ p, e.cmd? = some p → s._commandQueue.head? = some p) ∧
    ((popCommand s0)._busyFlag = true →
      (popCommand s0)._commandQueue = s._commandQueue ∧ s._commandQueue ≠ []) := by
  refine ⟨Or.inr (by simp [popCommand, hq]), ?_, ⟨pre, by simp [popCommand, ht], hpre⟩, ?_⟩
  · intro p _
    simp [popCommand, hc]
  · intro h
    simp [popCommand] at h

/-- The command state machine touches the head of the queue only. -/
theorem commandStep_head_only (env : Env) (inp : CycleInput) (s : State)
    (hinv : s._busyFlag = true → s._commandQueue ≠ []) :
    ∃ s', commandStep env inp s = some s' ∧
      (s'._commandQueue = s._commandQueue ∨ s'._commandQueue = s._commandQueue.tail) ∧
      (∀ p, s._commandQueue.head? ≠ some p → s'.cmds p = s.cmds p) ∧
      (∃ new, s'.trace = s.trace ++ new ∧
        ∀ e ∈ new, ∀ p, e.cmd? = some p → s._commandQueue.head? = some p) ∧
      (s'._busyFlag = true → s'._commandQueue = s._commandQueue ∧ s._commandQueue ≠ []) := by
  unfold commandStep
  split
  · rename_i hb
    have hbusy : s._busyFlag = true := by
      simp only [Bool.and_eq_true] at hb
      exact hb.1
    cases hq : s._commandQueue with
    | nil => exact absurd hq (hinv hbusy)
    | cons cmd rest =>
      have hhead : s._commandQueue.head? = some cmd := by rw [hq]; rfl
      simp only []
      cases hr : inp.getInverterBySerial (s.cmds cmd).targetAddress with
      | none =>
        refine ⟨_, rfl, ?_⟩
        rw [← hq]
        exact popCommand_head s [] s rfl rfl (by simp) (by simp)
      | some inv =>
        have hver : ∀ e ∈ [Event.verifyAllFragments inv cmd], ∀ p, e.cmd? = some p →
            s._commandQueue.head? = some p := by
          intro e he p hp
          simp at he
          subst he
          simp [Event.cmd?] at hp
          rw [hhead, hp]
        have hver2 : ∀ e ∈ [Event.verifyAllFragments inv cmd], ∀ p, e.cmd? = some p →
            p = cmd := by
          intro e he p hp
          have := hver e he p hp
          rw [hhead] at this
          exact (Option.some.inj this).symm
        simp only []
        split_ifs
        · simp only [sendLastPacketAgain]
          refine ⟨_, rfl, ?_⟩
          rw [← hq]
          refine sendEsbPacket_head env inp cmd s [Event.verifyAllFragments inv cmd] _ rfl
            hhead ?_ rfl hver2
          intro p hp
          simp [Function.update_noteq hp]
        · refine ⟨_, rfl, ?_⟩
          rw [← hq]
          exact popCommand_head s [Event.verifyAllFragments inv cmd] _ rfl rfl rfl hver
        · refine ⟨_, rfl, ?_⟩
          rw [← hq]
          exact popCommand_head s [Event.verifyAllFragments inv cmd] _ rfl rfl rfl hver
        · refine ⟨_, rfl, ?_⟩
          rw [← hq]
          exact popCommand_head s [Event.verifyAllFragments inv cmd] _ rfl rfl rfl hver
        · simp only [sendRetransmitPacket]
          refine ⟨_, rfl, ?_⟩
          rw [← hq]
          refine sendEsbPacket_head env inp cmd s [Event.verifyAllFragments inv cmd] _ rfl
            hhead ?_ rfl hver2
          intro p hp
          simp [Function.update_noteq hp]
        · refine ⟨_, rfl, ?_⟩
          rw [← hq]
          exact popCommand_head s [Event.verifyAllFragments inv cmd] _ rfl rfl rfl hver
  · split
    · rename_i hidle
      have hidle2 : s._busyFlag = false := by simpa using hidle
      cases hq : s._commandQueue with
      | nil =>
        exact ⟨s, rfl, Or.inl hq, fun _ _ => rfl, ⟨[], by simp, by simp⟩, fun h => by
          rw [hidle2] at h; simp at h⟩
      | cons cmd rest =>
        have hhead : s._commandQueue.head? = some cmd := by rw [hq]; rfl
        simp only []
        cases hr : inp.getInverterBySerial (s.cmds cmd).targetAddress with
        | none =>
          refine ⟨_, rfl, Or.inr (by simp [hq]), fun _ _ => rfl, ⟨[], by simp, by simp⟩, ?_⟩
          intro h
          simp [hidle2] at h
        | some inv =>
          refine ⟨_, rfl, ?_⟩
          rw [← hq]
          refine sendEsbPacket_head env inp cmd s [Event.clearRxFragmentBuffer inv] _ rfl
            hhead (fun _ _ => rfl) rfl ?_
          intro e he p hp
          simp at he
          subst he
          simp [Event.cmd?] at hp
    · rename_i h1 h2
      have hbusy : s._busyFlag = true := by simpa using h2
      exact ⟨s, rfl, Or.inl rfl, fun _ _ => rfl, ⟨[], by simp, by simp⟩,
        fun _ => ⟨rfl, hinv hbusy⟩⟩


/-! ## The receive buffer -/

theorem captureBody_length_le (env : Env) (s : State) :
    (captureBody env s)._rxBuffer.length ≤
      max s._rxBuffer.length (env.FRAGMENT_BUFFER_SIZE + 1) := by
  unfold captureBody
  split
  · rename_i h
    simp at h
    simp
    omega
  · simp [State.call]

/-- What the capture loop does guarantee: the buffer never grows beyond
`FRAGMENT_BUFFER_SIZE + 1` fragments. -/
theorem captureLoop_length_le (env : Env) (n : Nat) (s : State) :
    (captureLoop env n s)._rxBuffer.length ≤
      max s._rxBuffer.length (env.FRAGMENT_BUFFER_SIZE + 1) := by
  induction n generalizing s with
  | zero => simp [captureLoop]
  | succ n ih =>
    unfold captureLoop
    split
    · have h1 := ih (captureBody env s)
      have h2 := captureBody_length_le env s
      omega
    · simp

theorem captureBody_fifo_lt (env : Env) (s : State) (h : s.radio.available = true) :
    (captureBody env s).radio.rxFifo.length < s.radio.rxFifo.length := by
  unfold RF24.available at h
  unfold captureBody
  cases hf : s.radio.rxFifo with
  | nil => simp [hf] at h
  | cons p rest =>
    split
    · simp [RF24.read, hf]
    · simp [State.call, RF24.flush_rx]

/-- The fuel given to the capture loop is enough: with at least as much fuel as payloads in
the receive FIFO, the loop ends because the driver has nothing more available. -/
theorem captureLoop_drains (env : Env) (n : Nat) (s : State)
    (h : s.radio.rxFifo.length ≤ n) : (captureLoop env n s).radio.available = false := by
  induction n generalizing s with
  | zero =>
    have h0 : s.radio.rxFifo = [] := List.length_eq_zero.mp (Nat.le_zero.mp h)
    simp [captureLoop, RF24.available, h0]
  | succ n ih =>
    unfold captureLoop
    cases ha : s.radio.available with
    | false => simp [ha]
    | true =>
      simp only [if_true]
      apply ih
      have := captureBody_fifo_lt env s ha
      omega

/-- C1 (capture bound), the code at the scenario of the claim: bound 4, empty buffer, six
payloads available in one cycle. The guard `!(_rxBuffer.size() > FRAGMENT_BUFFER_SIZE)` still
admits a fragment at depth 4, so five fragments are buffered and the cycle ends at depth 5,
one more than the bound. -/
theorem loop_capture_six_available :
    sampleEnv.FRAGMENT_BUFFER_SIZE = 4 ∧ sixAvailable._isInitialized = true ∧
    sixAvailable._rxBuffer = [] ∧ sixAvailable.radio.rxFifo.length = 6 ∧
    (loop sampleEnv sampleInput sixAvailable).map (fun s => s._rxBuffer.length) = some 5 := by
  decide

/-- C2 (validation order), the code with two fragments buffered and the interrupt flag clear:
the cycle routes fragment 2, the newest (`back()`), and removes fragment 1, the oldest
(`pop()`); the next cycle routes fragment 2 a second time. Fragment 1 is never routed. -/
theorem loop_validate_two_buffered :
    twoBuffered._rxBuffer = [sampleFragment 1, sampleFragment 2] ∧
    (loop sampleEnv resolvedInput twoBuffered).map (fun s => (s._rxBuffer, s.trace)) =
      some ([sampleFragment 2], [Event.addRxFragment 0 [2, 2] 2]) ∧
    ((loop sampleEnv resolvedInput twoBuffered).bind (loop sampleEnv resolvedInput)).map
        (fun s => (s._rxBuffer, s.trace)) =
      some ([], [Event.addRxFragment 0 [2, 2] 2, Event.addRxFragment 0 [2, 2] 2]) := by
  decide

/-! ## The command state machine -/

theorem loop_eq_commandStep (env : Env) (inp : CycleInput) (s : State)
    (hinit : s._isInitialized = true) :
    loop env inp s = commandStep env inp (rxPhase env inp (tickPhase env inp s)) := by
  simp [loop, hinit]

/-- C3 (head only): in every state in which a set `_busyFlag` comes with a non-empty queue
(elsewhere `front()` is undefined), `loop` returns, and afterwards the command queue is the
queue before or the queue before without its head; command objects other than the head are
untouched; every call made on a command in the cycle (send count, router address,
verification) is made on the head; and a command in flight after the cycle is the head of
the unchanged queue. -/
theorem loop_touches_head_only (env : Env) (inp : CycleInput) (s : State)
    (hinv : s._busyFlag = true → s._commandQueue ≠ []) :
    ∃ s', loop env inp s = some s' ∧
      (s'._commandQueue = s._commandQueue ∨ s'._commandQueue = s._commandQueue.tail) ∧
      (∀ p, s._commandQueue.head? ≠ some p → s'.cmds p = s.cmds p) ∧
      (∃ new, s'.trace = s.trace ++ new ∧
        ∀ e ∈ new, ∀ p, e.cmd? = some p → s._commandQueue.head? = some p) ∧
      (s'._busyFlag = true → s'._commandQueue = s._commandQueue ∧ s._commandQueue ≠ []) := by
  cases hinit : s._isInitialized with
  | false =>
    refine ⟨s, by simp [loop, hinit], Or.inl rfl, fun _ _ => rfl, ⟨[], by simp, by simp⟩, ?_⟩
    exact fun h => ⟨rfl, hinv h⟩
  | true =>
    obtain ⟨_, hb, _, _, hq, _, hc, pre, ht, hpre⟩ := phases_rxOnly env inp s
    obtain ⟨s', hs', h1, h2, ⟨new, h3, h3'⟩, h4⟩ :=
      commandStep_head_only env inp (rxPhase env inp (tickPhase env inp s))
        (by rw [hb, hq]; exact hinv)
    rw [hq] at h1 h2 h3' h4
    rw [hc] at h2
    refine ⟨s', by rw [loop_eq_commandStep env inp s hinit, hs'], h1, h2, ⟨pre ++ new, ?_, ?_⟩, h4⟩
    · rw [h3, ht, List.append_assoc]
    · intro e he p hp
      rcases List.mem_append.mp he with h | h
      · rw [cmd?_rx e (hpre e h)] at hp
        simp at hp
      · exact h3' e h p hp

/-- C3, at a concrete state: command 0 in flight, command 1 queued behind it, the deadline
elapsed and the outcome a retransmit request. -/
theorem loop_touches_head_only_witness :
    (inFlight._busyFlag = true → inFlight._commandQueue ≠ []) ∧
    ∃ s', loop sampleEnv (outcomeInput 3 11) inFlight = some s' ∧
      (s'._commandQueue = inFlight._commandQueue ∨
        s'._commandQueue = inFlight._commandQueue.tail) ∧
      (∀ p, inFlight._commandQueue.head? ≠ some p → s'.cmds p = inFlight.cmds p) ∧
      (∃ new, s'.trace = inFlight.trace ++ new ∧
        ∀ e ∈ new, ∀ p, e.cmd? = some p → inFlight._commandQueue.head? = some p) ∧
      (s'._busyFlag = true →
        s'._commandQueue = inFlight._commandQueue ∧ inFlight._commandQueue ≠ []) :=
  ⟨by decide, loop_touches_head_only sampleEnv (outcomeInput 3 11) inFlight (by decide)⟩

theorem sendEsbPacket_invRx (env : Env) (inp : CycleInput) (cmd : CmdPtr) (s : State) :
    (sendEsbPacket env inp cmd s).invRx = s.invRx := by
  simp [sendEsbPacket, State.call, openWritingPipe, openReadingPipe, getTxNxtChannel,
    getRxNxtChannel]

/-- The deadline-elapsed branch of the state machine on an outcome that ends the command. -/
theorem commandStep_terminal (env : Env) (inp : CycleInput) (s : State) (cmd : CmdPtr)
    (rest : List CmdPtr) (hbusy : s._busyFlag = true) (hq : s._commandQueue = cmd :: rest)
    (hdead : s._rxTimeout.occured inp.now = true)
    (hout : inp.getInverterBySerial (s.cmds cmd).targetAddress = none ∨
      ∃ inv, inp.getInverterBySerial (s.cmds cmd).targetAddress = some inv ∧
        inp.verifyAllFragments inv (s.cmds cmd) ≠ env.FRAGMENT_ALL_MISSING_RESEND ∧
        env.terminal (inp.verifyAllFragments inv (s.cmds cmd))) :
    ∃ s', commandStep env inp s = some s' ∧ s'._commandQueue = rest ∧ s'._busyFlag = false ∧
      txLog s'.trace = txLog s.trace ∧ s'.cmds = s.cmds ∧ s'._rxChIdx = s._rxChIdx ∧
      s'._txChIdx = s._txChIdx ∧ s'._isInitialized = s._isInitialized ∧
      s'._rxTimeout = s._rxTimeout := by
  unfold commandStep
  rw [if_pos (by simp [hbusy, hdead])]
  rcases hout with hnone | ⟨inv, hsome, hne, hterm⟩
  · simp only [hq, hnone]
    exact ⟨_, rfl, by simp [popCommand, hq], rfl, rfl, rfl, rfl, rfl, rfl, rfl⟩
  · simp only [hq, hsome]
    have htx : txLog (s.trace ++ [Event.verifyAllFragments inv cmd]) = txLog s.trace := by
      simp [txLog_append, txLog]
    rw [if_neg hne]
    unfold Env.terminal at hterm
    split_ifs
    · exact ⟨_, rfl, by simp [popCommand, hq], rfl, htx, rfl, rfl, rfl, rfl, rfl⟩
    · exact ⟨_, rfl, by simp [popCommand, hq], rfl, htx, rfl, rfl, rfl, rfl, rfl⟩
    · exact ⟨_, rfl, by simp [popCommand, hq], rfl, htx, rfl, rfl, rfl, rfl, rfl⟩
    · rename_i h1 h2 h3 h4
      exfalso
      rcases hterm with h | h | h | h
      · exact h1 h
      · exact h2 h
      · exact h3 h
      · omega
    · exact ⟨_, rfl, by simp [popCommand, hq], rfl, htx, rfl, rfl, rfl, rfl, rfl⟩

/-- The deadline-elapsed branch of the state machine on an outcome that asks for another
transmission. -/
theorem commandStep_retry (env : Env) (inp : CycleInput) (s : State) (cmd : CmdPtr)
    (rest : List CmdPtr) (inv : InvId) (hbusy : s._busyFlag = true)
    (hq : s._commandQueue = cmd :: rest) (hdead : s._rxTimeout.occured inp.now = true)
    (hres : inp.getInverterBySerial (s.cmds cmd).targetAddress = some inv)
    (hv : env.retryable (inp.verifyAllFragments inv (s.cmds cmd))) :
    ∃ s', commandStep env inp s = some s' ∧ s'._commandQueue = s._commandQueue ∧
      s'._busyFlag = true ∧
      s'._rxTimeout = TimeoutHelper.set (s.cmds cmd).timeout inp.now ∧
      s'.cmds = Function.update s.cmds cmd
        { s.cmds cmd with
            sendCount := (s.cmds cmd).sendCount + 1, routerAddress := s._dtuSerial,
            frameNo := if inp.verifyAllFragments inv (s.cmds cmd) = env.FRAGMENT_ALL_MISSING_RESEND
              then none else some (inp.verifyAllFragments inv (s.cmds cmd)) } ∧
      txLog s'.trace = txLog s.trace ++ [env.getDataPayload (s'.cmds cmd)] ∧
      s'._isInitialized = s._isInitialized ∧ s'._dtuSerial = s._dtuSerial := by
  unfold commandStep
  rw [if_pos (by simp [hbusy, hdead])]
  simp only [hq, hres]
  by_cases h0 : inp.verifyAllFragments inv (s.cmds cmd) = env.FRAGMENT_ALL_MISSING_RESEND
  · rw [if_pos h0]
    simp only [sendLastPacketAgain, hq]
    refine ⟨_, rfl, ?_, ?_, ?_, ?_, ?_, ?_, ?_⟩
    · rw [sendEsbPacket_commandQueue]
    · rw [sendEsbPacket_busyFlag]
    · rw [sendEsbPacket_rxTimeout]; simp
    · rw [sendEsbPacket_cmds]
      simp [h0, Command.incrementSendCount, Command.setRouterAddress]
    · rw [sendEsbPacket_trace, sendEsbPacket_cmds, txLog_append, txLog_sendTrace]
      simp [txLog_append, txLog]
    · simp [sendEsbPacket, State.call, openWritingPipe, openReadingPipe, getTxNxtChannel,
        getRxNxtChannel]
    · simp [sendEsbPacket, State.call, openWritingPipe, openReadingPipe, getTxNxtChannel,
        getRxNxtChannel]
  · rw [if_neg h0]
    have hnt : ¬ env.terminal (inp.verifyAllFragments inv (s.cmds cmd)) := by
      rcases hv with h | h
      · exact absurd h h0
      · exact h
    unfold Env.terminal at hnt
    push_neg at hnt
    obtain ⟨n1, n2, n3, n4⟩ := hnt
    rw [if_neg n1, if_neg n2, if_neg n3, if_pos (Nat.pos_of_ne_zero n4)]
    simp only [sendRetransmitPacket, hq]
    refine ⟨_, rfl, ?_, ?_, ?_, ?_, ?_, ?_, ?_⟩
    · rw [sendEsbPacket_commandQueue]
    · rw [sendEsbPacket_busyFlag]
    · rw [sendEsbPacket_rxTimeout]; simp
    · rw [sendEsbPacket_cmds]
      simp [h0, Command.incrementSendCount, Command.setRouterAddress]
    · rw [sendEsbPacket_trace, sendEsbPacket_cmds, txLog_append, txLog_sendTrace]
      simp [txLog_append, txLog]
    · simp [sendEsbPacket, State.call, openWritingPipe, openReadingPipe, getTxNxtChannel,
        getRxNxtChannel]
    · simp [sendEsbPacket, State.call, openWritingPipe, openReadingPipe, getTxNxtChannel,
        getRxNxtChannel]

/-- The Idle branch of the state machine when the head's target resolves to no inverter. -/
theorem commandStep_idle_unresolved (env : Env) (inp : CycleInput) (s : State) (cmd : CmdPtr)
    (rest : List CmdPtr) (hidle : s._busyFlag = false) (hq : s._commandQueue = cmd :: rest)
    (hres : inp.getInverterBySerial (s.cmds cmd).targetAddress = none) :
    commandStep env inp s = some { s with _commandQueue := rest } := by
  unfold commandStep
  rw [if_neg (by simp [hidle]), if_pos (by simp [hidle])]
  simp only [hq, hres, List.tail_cons]

/-- The Idle branch of the state machine when the head's target resolves. -/
theorem commandStep_idle_send (env : Env) (inp : CycleInput) (s : State) (cmd : CmdPtr)
    (rest : List CmdPtr) (inv : InvId) (hidle : s._busyFlag = false)
    (hq : s._commandQueue = cmd :: rest)
    (hres : inp.getInverterBySerial (s.cmds cmd).targetAddress = some inv) :
    commandStep env inp s = some (sendEsbPacket env inp cmd
      { s with invRx := Function.update s.invRx inv [],
               trace := s.trace ++ [Event.clearRxFragmentBuffer inv] }) := by
  unfold commandStep
  rw [if_neg (by simp [hidle]), if_pos (by simp [hidle])]
  simp only [hq, hres]

/-- One cycle at an elapsed deadline with an outcome that ends the command. -/
theorem loop_terminal_step (env : Env) (inp : CycleInput) (s : State) (cmd : CmdPtr)
    (rest : List CmdPtr) (hinit : s._isInitialized = true) (hbusy : s._busyFlag = true)
    (hq : s._commandQueue = cmd :: rest) (hdead : s._rxTimeout.occured inp.now = true)
    (hcodes : env.codesDistinct)
    (hout : inp.getInverterBySerial (s.cmds cmd).targetAddress = none ∨
      ∃ inv, inp.getInverterBySerial (s.cmds cmd).targetAddress = some inv ∧
        env.terminal (inp.verifyAllFragments inv (s.cmds cmd))) :
    ∃ s', loop env inp s = some s' ∧ s'._commandQueue = rest ∧ s'._busyFlag = false ∧
      txLog s'.trace = txLog s.trace ∧ s'.cmds = s.cmds := by
  obtain ⟨_, hb, _, _, hq', hto, hc, _⟩ := phases_rxOnly env inp s
  obtain ⟨s', hs', h1, h2, h3, h4, _⟩ :=
    commandStep_terminal env inp (rxPhase env inp (tickPhase env inp s)) cmd rest
      (by rw [hb, hbusy]) (by rw [hq', hq]) (by rw [hto, hdead])
      (by
        rw [hc]
        rcases hout with h | ⟨inv, h, ht⟩
        · exact Or.inl h
        · refine Or.inr ⟨inv, h, ?_, ht⟩
          obtain ⟨c1, c2, c3, c4⟩ := hcodes
          intro he
          rw [he] at ht
          rcases ht with h | h | h | h
          · exact c1 h
          · exact c2 h
          · exact c3 h
          · exact c4 h)
  refine ⟨s', by rw [loop_eq_commandStep env inp s hinit, hs'], h1, h2, ?_, by rw [h4, hc]⟩
  rw [h3, (phases_rxOnly env inp s).txLog_eq]

/-- One cycle at an elapsed deadline with an outcome that asks for another transmission. -/
theorem loop_retry_step (env : Env) (inp : CycleInput) (s : State) (cmd : CmdPtr)
    (rest : List CmdPtr) (inv : InvId) (hinit : s._isInitialized = true)
    (hbusy : s._busyFlag = true) (hq : s._commandQueue = cmd :: rest)
    (hdead : s._rxTimeout.occured inp.now = true)
    (hres : inp.getInverterBySerial (s.cmds cmd).targetAddress = some inv)
    (hv : env.retryable (inp.verifyAllFragments inv (s.cmds cmd))) :
    ∃ s', loop env inp s = some s' ∧ s'._commandQueue = s._commandQueue ∧
      s'._busyFlag = true ∧
      s'._rxTimeout = TimeoutHelper.set (s.cmds cmd).timeout inp.now ∧
      s'._rxTimeout.occured inp.now = false ∧
      s'.cmds = Function.update s.cmds cmd
        { s.cmds cmd with
            sendCount := (s.cmds cmd).sendCount + 1, routerAddress := s._dtuSerial,
            frameNo := if inp.verifyAllFragments inv (s.cmds cmd) = env.FRAGMENT_ALL_MISSING_RESEND
              then none else some (inp.verifyAllFragments inv (s.cmds cmd)) } ∧
      txLog s'.trace = txLog s.trace ++ [env.getDataPayload (s'.cmds cmd)] ∧
      s'._isInitialized = true := by
  obtain ⟨hi, hb, hd, _, hq', hto, hc, _⟩ := phases_rxOnly env inp s
  obtain ⟨s', hs', h1, h2, h3, h4, h5, h6, _⟩ :=
    commandStep_retry env inp (rxPhase env inp (tickPhase env inp s)) cmd rest inv
      (by rw [hb, hbusy]) (by rw [hq', hq]) (by rw [hto, hdead]) (by rw [hc, hres])
      (by rw [hc]; exact hv)
  rw [hc, hd] at h4
  rw [hc] at h3
  refine ⟨s', by rw [loop_eq_commandStep env inp s hinit, hs'], by rw [h1, hq'], h2, h3, ?_,
    h4, ?_, by rw [h6, hi, hinit]⟩
  · rw [h3]
    simp [TimeoutHelper.occured, TimeoutHelper.set]
  · rw [h5, (phases_rxOnly env inp s).txLog_eq]

/-- C4 (terminal outcomes): with a command in flight and its deadline elapsed, if the target
inverter is not resolved, or if `verifyAllFragments` returns `FRAGMENT_ALL_MISSING_TIMEOUT`,
`FRAGMENT_RETRANSMIT_TIMEOUT`, `FRAGMENT_HANDLE_ERROR` or 0, then `loop` returns with the
head removed, the rest of the queue and all command objects unchanged, `_busyFlag` clear and
no payload written to the radio. The result codes are taken as distinct from
`FRAGMENT_ALL_MISSING_RESEND`, which `loop` tests first. -/
theorem loop_deadline_terminal (env : Env) (inp : CycleInput) (s : State) (cmd : CmdPtr)
    (rest : List CmdPtr) (hinit : s._isInitialized = true) (hbusy : s._busyFlag = true)
    (hq : s._commandQueue = cmd :: rest) (hdead : s._rxTimeout.occured inp.now = true)
    (hcodes : env.codesDistinct)
    (hout : inp.getInverterBySerial (s.cmds cmd).targetAddress = none ∨
      ∃ inv, inp.getInverterBySerial (s.cmds cmd).targetAddress = some inv ∧
        env.terminal (inp.verifyAllFragments inv (s.cmds cmd))) :
    ∃ s', loop env inp s = some s' ∧ s'._commandQueue = rest ∧ s'._busyFlag = false ∧
      txLog s'.trace = txLog s.trace ∧ s'.cmds = s.cmds :=
  loop_terminal_step env inp s cmd rest hinit hbusy hq hdead hcodes hout

/-- C4, at a concrete state: command 0 in flight since time 0 with timeout 10, the cycle at
time 11 with outcome `FRAGMENT_ALL_MISSING_TIMEOUT`. -/
theorem loop_deadline_terminal_witness :
    ∃ s', loop sampleEnv (outcomeInput 254 11) inFlight = some s' ∧ s'._commandQueue = [1] ∧
      s'._busyFlag = false ∧ txLog s'.trace = txLog inFlight.trace ∧ s'.cmds = inFlight.cmds :=
  loop_deadline_terminal sampleEnv (outcomeInput 254 11) inFlight 0 [1] (by decide) (by decide)
    (by decide) (by decide) (by decide) (Or.inr ⟨0, by decide, by decide⟩)

/-- C5 (retry outcomes): with a command in flight, its deadline elapsed and its inverter
resolved, on `FRAGMENT_ALL_MISSING_RESEND` the head command is sent again as a whole
(`frameNo` none), and on every other non-zero result that is none of the three terminal
codes a retransmit request carrying that result is sent; either way one payload, the
serialised head command, is written to the radio, the command queue is unchanged,
`_busyFlag` is set and the deadline starts again at the current time with the command's
timeout, so that it has not elapsed. -/
theorem loop_deadline_retry (env : Env) (inp : CycleInput) (s : State) (cmd : CmdPtr)
    (rest : List CmdPtr) (inv : InvId) (hinit : s._isInitialized = true)
    (hbusy : s._busyFlag = true) (hq : s._commandQueue = cmd :: rest)
    (hdead : s._rxTimeout.occured inp.now = true)
    (hres : inp.getInverterBySerial (s.cmds cmd).targetAddress = some inv)
    (hv : env.retryable (inp.verifyAllFragments inv (s.cmds cmd))) :
    ∃ s', loop env inp s = some s' ∧ s'._commandQueue = s._commandQueue ∧
      s'._busyFlag = true ∧
      s'._rxTimeout = TimeoutHelper.set (s.cmds cmd).timeout inp.now ∧
      s'._rxTimeout.occured inp.now = false ∧
      s'.cmds = Function.update s.cmds cmd
        { s.cmds cmd with
            sendCount := (s.cmds cmd).sendCount + 1, routerAddress := s._dtuSerial,
            frameNo := if inp.verifyAllFragments inv (s.cmds cmd) = env.FRAGMENT_ALL_MISSING_RESEND
              then none else some (inp.verifyAllFragments inv (s.cmds cmd)) } ∧
      txLog s'.trace = txLog s.trace ++ [env.getDataPayload (s'.cmds cmd)] := by
  obtain ⟨s', h1, h2, h3, h4, h5, h6, h7, _⟩ :=
    loop_retry_step env inp s cmd rest inv hinit hbusy hq hdead hres hv
  exact ⟨s', h1, h2, h3, h4, h5, h6, h7⟩

/-- C5, at a concrete state: command 0 in flight, the cycle at time 11 with outcome 3, a
missing-fragment indicator. -/
theorem loop_deadline_retry_witness :
    ∃ s', loop sampleEnv (outcomeInput 3 11) inFlight = some s' ∧
      s'._commandQueue = inFlight._commandQueue ∧ s'._busyFlag = true ∧
      s'._rxTimeout = TimeoutHelper.set (inFlight.cmds 0).timeout (outcomeInput 3 11).now ∧
      s'._rxTimeout.occured (outcomeInput 3 11).now = false ∧
      s'.cmds = Function.update inFlight.cmds 0
        { inFlight.cmds 0 with
            sendCount := (inFlight.cmds 0).sendCount + 1, routerAddress := inFlight._dtuSerial,
            frameNo := if (outcomeInput 3 11).verifyAllFragments 0 (inFlight.cmds 0) =
                sampleEnv.FRAGMENT_ALL_MISSING_RESEND
              then none else some ((outcomeInput 3 11).verifyAllFragments 0 (inFlight.cmds 0)) } ∧
      txLog s'.trace = txLog inFlight.trace ++ [sampleEnv.getDataPayload (s'.cmds 0)] :=
  loop_deadline_retry sampleEnv (outcomeInput 3 11) inFlight 0 [1] 0 (by decide) (by decide)
    (by decide) (by decide) (by decide) (by decide)

/-- C7 (unresolved head when Idle): with `_busyFlag` clear and a queue whose head targets an
address that resolves to no inverter, `loop` removes exactly the head: the queue afterwards
is the rest, which is empty when the head was the only command; no payload is written,
`_busyFlag` stays clear and the command objects are unchanged. -/
theorem loop_idle_unresolved (env : Env) (inp : CycleInput) (s : State) (cmd : CmdPtr)
    (rest : List CmdPtr) (hinit : s._isInitialized = true) (hidle : s._busyFlag = false)
    (hq : s._commandQueue = cmd :: rest)
    (hres : inp.getInverterBySerial (s.cmds cmd).targetAddress = none) :
    ∃ s', loop env inp s = some s' ∧ s'._commandQueue = rest ∧ s'._busyFlag = false ∧
      txLog s'.trace = txLog s.trace ∧ s'.cmds = s.cmds ∧
      (rest = [] → s'._commandQueue = []) := by
  have hrx := phases_rxOnly env inp s
  obtain ⟨_, hb, _, _, hq', _, hc, _⟩ := hrx
  have hstep := commandStep_idle_unresolved env inp (rxPhase env inp (tickPhase env inp s))
    cmd rest (by rw [hb, hidle]) (by rw [hq', hq]) (by rw [hc, hres])
  refine ⟨_, by rw [loop_eq_commandStep env inp s hinit, hstep], rfl, ?_, ?_, ?_, ?_⟩
  · simp [hb, hidle]
  · exact (phases_rxOnly env inp s).txLog_eq
  · simp [hc]
  · intro h
    simp [h]

/-- C7, the scenario of the spec: one command queued, its target unresolved. -/
theorem loop_idle_unresolved_witness :
    ∃ s', loop sampleEnv sampleInput { sampleState with _commandQueue := [0] } = some s' ∧
      s'._commandQueue = [] ∧ s'._busyFlag = false ∧
      txLog s'.trace = txLog ({ sampleState with _commandQueue := [0] } : State).trace ∧
      s'.cmds = ({ sampleState with _commandQueue := [0] } : State).cmds ∧
      (([] : List CmdPtr) = [] → s'._commandQueue = []) :=
  loop_idle_unresolved sampleEnv sampleInput { sampleState with _commandQueue := [0] } 0 []
    (by decide) (by decide) (by decide) (by decide)

theorem tickPhase_rxChIdx (env : Env) (inp : CycleInput) (s : State) :
    (tickPhase env inp s)._rxChIdx =
      if inp.tick then nextIdx env._rxChLst.length s._rxChIdx else s._rxChIdx := by
  unfold tickPhase
  split
  · simp [switchRxCh, getRxNxtChannel, State.call, nextIdx]
  · rfl

theorem rxPhase_rxChIdx (env : Env) (inp : CycleInput) (s : State) :
    (rxPhase env inp s)._rxChIdx = s._rxChIdx := by
  unfold rxPhase
  split
  · obtain ⟨buf, radio, new, h, _⟩ := captureLoop_frame env s.radio.rxFifo.length s
    unfold capture
    rw [h]
  · unfold validate
    split
    · rfl
    · split
      · split <;> rfl
      · rfl

/-- C8 (send when Idle): with `_busyFlag` clear and a queue whose head resolves to inverter
`inv`, `loop` returns; the calls of the cycle end with `clearRxFragmentBuffer` on `inv`
followed by the calls of one `sendEsbPacket` for the head, so the buffer is cleared before
the payload is written; exactly one payload, the head command's, is written; the head's send
count is one more than before; the deadline is set at the current time with the command's
own timeout; `_busyFlag` is set and the queue is unchanged. -/
theorem loop_idle_send (env : Env) (inp : CycleInput) (s : State) (cmd : CmdPtr)
    (rest : List CmdPtr) (inv : InvId) (hinit : s._isInitialized = true)
    (hidle : s._busyFlag = false) (hq : s._commandQueue = cmd :: rest)
    (hres : inp.getInverterBySerial (s.cmds cmd).targetAddress = some inv) :
    ∃ s', loop env inp s = some s' ∧ s'._commandQueue = s._commandQueue ∧
      s'._busyFlag = true ∧
      s'._rxTimeout = TimeoutHelper.set (s.cmds cmd).timeout inp.now ∧
      (s'.cmds cmd).sendCount = (s.cmds cmd).sendCount + 1 ∧
      s'.invRx inv = [] ∧
      txLog s'.trace = txLog s.trace ++ [env.getDataPayload (s'.cmds cmd)] ∧
      ∃ pre, (∀ e ∈ pre, e.isRx = true) ∧
        s'.trace = s.trace ++ pre ++ Event.clearRxFragmentBuffer inv ::
          sendTrace env cmd (s.cmds cmd) s._dtuSerial (tickPhase env inp s)._rxChIdx s._txChIdx := by
  have hrx := phases_rxOnly env inp s
  obtain ⟨_, hb, hd, htx, hq', _, hc, pre, ht, hpre⟩ := hrx
  have hstep := commandStep_idle_send env inp (rxPhase env inp (tickPhase env inp s))
    cmd rest inv (by rw [hb, hidle]) (by rw [hq', hq]) (by rw [hc, hres])
  refine ⟨_, by rw [loop_eq_commandStep env inp s hinit, hstep], ?_, ?_, ?_, ?_, ?_, ?_, pre,
    hpre, ?_⟩
  · rw [sendEsbPacket_commandQueue]; exact hq'
  · rw [sendEsbPacket_busyFlag]
  · rw [sendEsbPacket_rxTimeout]; simp [hc]
  · rw [sendEsbPacket_cmds]
    simp [hc, Command.incrementSendCount, Command.setRouterAddress]
  · rw [sendEsbPacket_invRx]; simp
  · have hlog : txLog ((rxPhase env inp (tickPhase env inp s)).trace ++
        [Event.clearRxFragmentBuffer inv]) = txLog s.trace := by
      rw [ht, txLog_append, txLog_append, txLog_rx pre hpre]
      simp [txLog]
    rw [sendEsbPacket_trace, sendEsbPacket_cmds, txLog_append, txLog_sendTrace]
    simp [hlog, hc, hd]
  · rw [sendEsbPacket_trace]
    simp [hc, hd, htx, ht, rxPhase_rxChIdx]

/-- C8, at a concrete state: Idle, commands 0 and 1 queued, every address resolving to
inverter 0. -/
theorem loop_idle_send_witness :
    ∃ s', loop sampleEnv resolvedInput idleQueued = some s' ∧
      s'._commandQueue = idleQueued._commandQueue ∧ s'._busyFlag = true ∧
      s'._rxTimeout = TimeoutHelper.set (idleQueued.cmds 0).timeout resolvedInput.now ∧
      (s'.cmds 0).sendCount = (idleQueued.cmds 0).sendCount + 1 ∧
      s'.invRx 0 = [] ∧
      txLog s'.trace = txLog idleQueued.trace ++ [sampleEnv.getDataPayload (s'.cmds 0)] ∧
      ∃ pre, (∀ e ∈ pre, e.isRx = true) ∧
        s'.trace = idleQueued.trace ++ pre ++ Event.clearRxFragmentBuffer 0 ::
          sendTrace sampleEnv 0 (idleQueued.cmds 0) idleQueued._dtuSerial
            (tickPhase sampleEnv resolvedInput idleQueued)._rxChIdx idleQueued._txChIdx :=
  loop_idle_send sampleEnv resolvedInput idleQueued 0 [1] 0 (by decide) (by decide)
    (by decide) (by decide)

/-! ## Retries over successive deadline expirations -/

theorem runCycles_append (env : Env) (a b : List CycleInput) (s : State) :
    runCycles env (a ++ b) s = (runCycles env a s).bind (runCycles env b) := by
  induction a generalizing s with
  | nil => simp [runCycles]
  | cons i is ih =>
    simp only [List.cons_append, runCycles]
    cases loop env i s with
    | none => rfl
    | some s1 => simpa using ih s1

theorem expirations_append (T : Nat) (a : List CycleInput) (l : CycleInput) (t : TimeoutHelper) :
    Expirations T t (a ++ [l]) ↔
      Expirations T t a ∧ (lastDeadline T t a).occured l.now = true := by
  induction a generalizing t with
  | nil => simp [Expirations, lastDeadline]
  | cons i is ih => simp [Expirations, lastDeadline, ih, and_assoc]

/-- While every expiration brings an outcome that asks for another transmission, the command
stays at the head of the queue, in flight, and one payload is written per expiration. -/
theorem runCycles_retries (env : Env) (cmd : CmdPtr) (rest : List CmdPtr) (T A : Nat)
    (retries : List CycleInput) (s : State) (hinit : s._isInitialized = true)
    (hbusy : s._busyFlag = true) (hq : s._commandQueue = cmd :: rest)
    (hT : (s.cmds cmd).timeout = T) (hA : (s.cmds cmd).targetAddress = A)
    (hexp : Expirations T s._rxTimeout retries)
    (hretry : ∀ i ∈ retries, ∃ inv, i.getInverterBySerial A = some inv ∧
      ∀ c, env.retryable (i.verifyAllFragments inv c)) :
    ∃ s1, runCycles env retries s = some s1 ∧ s1._isInitialized = true ∧
      s1._busyFlag = true ∧ s1._commandQueue = cmd :: rest ∧
      (s1.cmds cmd).targetAddress = A ∧
      s1._rxTimeout = lastDeadline T s._rxTimeout retries ∧
      (txLog s1.trace).length = (txLog s.trace).length + retries.length := by
  induction retries generalizing s with
  | nil => exact ⟨s, rfl, hinit, hbusy, hq, hA, rfl, rfl⟩
  | cons i is ih =>
    obtain ⟨hocc, hrest⟩ := hexp
    obtain ⟨inv, hres, hv⟩ := hretry i (List.mem_cons_self _ _)
    obtain ⟨s1, h1, h2, h3, h4, _, h6, h7, h8⟩ :=
      loop_retry_step env i s cmd rest inv hinit hbusy hq hocc (by rw [hA, hres]) (hv _)
    have hT1 : (s1.cmds cmd).timeout = T := by rw [h6]; simp [hT]
    have hA1 : (s1.cmds cmd).targetAddress = A := by rw [h6]; simp [hA]
    obtain ⟨s2, g1, g2, g3, g4, g5, g6, g7⟩ :=
      ih s1 h8 h3 (by rw [h2, hq]) hT1 hA1 (by rw [h4, hT]; exact hrest)
        (fun j hj => hretry j (List.mem_cons_of_mem _ hj))
    refine ⟨s2, by simp [runCycles, h1, g1], g2, g3, g4, g5, ?_, ?_⟩
    · rw [g6, h4, hT]; rfl
    · rw [g7, h7]
      simp
      omega

theorem expiries_expirations (outcomes : Nat → Nat) (n k : Nat) (t : TimeoutHelper)
    (h : t.startMillis + t.timeout < 11 * (k + 1)) :
    Expirations 10 t (expiries outcomes n k) := by
  induction n generalizing k t with
  | zero => trivial
  | succ n ih =>
    refine ⟨by simp [TimeoutHelper.occured, outcomeInput, h], ?_⟩
    apply ih
    simp [TimeoutHelper.set, outcomeInput]
    omega

theorem expiries_mem (outcomes : Nat → Nat) (n k : Nat) (i : CycleInput)
    (h : i ∈ expiries outcomes n k) : ∃ j, i = outcomeInput (outcomes j) (11 * (j + 1)) := by
  induction n generalizing k with
  | zero => simp [expiries] at h
  | succ n ih =>
    simp only [expiries, List.mem_cons] at h
    rcases h with h | h
    · exact ⟨k, h⟩
    · exact ih (k + 1) h

/-- C6 (no bound in `loop`), refuting the claim for the command in flight in `inFlight`:
there is no number `N` such that for every sequence of verification outcomes the command is
out of the queue after at most `N` deadline expirations. When every expiration returns
`FRAGMENT_ALL_MISSING_RESEND`, the command is sent again each time and never removed. -/
theorem loop_retries_without_bound :
    ¬ ∃ N : Nat, ∀ outcomes : Nat → Nat, ∃ k, k ≤ N ∧
      ∃ s', runCycles sampleEnv (expiries outcomes k 0) inFlight = some s' ∧
        0 ∉ s'._commandQueue := by
  rintro ⟨N, h⟩
  obtain ⟨k, _, s', hs', hout⟩ := h (fun _ => 255)
  obtain ⟨s1, h1, _, _, h4, _⟩ :=
    runCycles_retries sampleEnv 0 [1] 10 7 (expiries (fun _ => 255) k 0) inFlight
      (by decide) (by decide) (by decide) (by decide) (by decide)
      (expiries_expirations _ k 0 _ (by decide))
      (by
        intro i hi
        obtain ⟨j, hj⟩ := expiries_mem _ k 0 i hi
        subst hj
        exact ⟨0, rfl, fun _ => (by decide : sampleEnv.retryable 255)⟩)
  rw [hs'] at h1
  cases h1
  rw [h4] at hout
  simp at hout

/-- C6 as amended: for every command in flight and every sequence of deadline expirations,
as long as the outcomes ask for another transmission (`FRAGMENT_ALL_MISSING_RESEND`, or a
non-zero value that is no terminal code) the command stays at the head of the queue, in
flight, with one payload written per expiration; at the first expiration whose outcome is a
terminal code or 0, or whose inverter is not resolved, the command is removed and
`_busyFlag` cleared. The number of retries is set by the outcomes, not by `loop`. -/
theorem runCycles_removed_at_first_terminal (env : Env) (retries : List CycleInput)
    (last : CycleInput) (s : State) (cmd : CmdPtr) (rest : List CmdPtr)
    (hinit : s._isInitialized = true) (hbusy : s._busyFlag = true)
    (hq : s._commandQueue = cmd :: rest) (hcodes : env.codesDistinct)
    (hexp : Expirations (s.cmds cmd).timeout s._rxTimeout (retries ++ [last]))
    (hretry : ∀ i ∈ retries, ∃ inv,
      i.getInverterBySerial (s.cmds cmd).targetAddress = some inv ∧
      ∀ c, env.retryable (i.verifyAllFragments inv c))
    (hlast : last.getInverterBySerial (s.cmds cmd).targetAddress = none ∨
      ∃ inv, last.getInverterBySerial (s.cmds cmd).targetAddress = some inv ∧
        ∀ c, env.terminal (last.verifyAllFragments inv c)) :
    (∃ s1, runCycles env retries s = some s1 ∧ s1._commandQueue = cmd :: rest ∧
      s1._busyFlag = true ∧
      (txLog s1.trace).length = (txLog s.trace).length + retries.length) ∧
    (∃ s2, runCycles env (retries ++ [last]) s = some s2 ∧ s2._commandQueue = rest ∧
      s2._busyFlag = false) := by
  obtain ⟨hexp1, hexp2⟩ := (expirations_append _ retries last _).mp hexp
  obtain ⟨s1, h1, h2, h3, h4, h5, h6, h7⟩ :=
    runCycles_retries env cmd rest _ _ retries s hinit hbusy hq rfl rfl hexp1 hretry
  refine ⟨⟨s1, h1, h4, h3, h7⟩, ?_⟩
  obtain ⟨s2, g1, g2, g3, _⟩ :=
    loop_terminal_step env last s1 cmd rest h2 h3 h4 (by rw [h6]; exact hexp2) hcodes
      (by
        rw [h5]
        rcases hlast with h | ⟨inv, h, ht⟩
        · exact Or.inl h
        · exact Or.inr ⟨inv, h, ht _⟩)
  exact ⟨s2, by simp [runCycles_append, h1, runCycles, g1], g2, g3⟩

/-- C6 as amended, at a concrete run: command 0 in flight, two expirations that return
`FRAGMENT_ALL_MISSING_RESEND`, then one that returns `FRAGMENT_ALL_MISSING_TIMEOUT`. -/
theorem runCycles_removed_at_first_terminal_witness :
    (∃ s1, runCycles sampleEnv [outcomeInput 255 11, outcomeInput 255 22] inFlight = some s1 ∧
      s1._commandQueue = 0 :: [1] ∧ s1._busyFlag = true ∧
      (txLog s1.trace).length =
        (txLog inFlight.trace).length + [outcomeInput 255 11, outcomeInput 255 22].length) ∧
    (∃ s2, runCycles sampleEnv ([outcomeInput 255 11, outcomeInput 255 22] ++
        [outcomeInput 254 33]) inFlight = some s2 ∧
      s2._commandQueue = [1] ∧ s2._busyFlag = false) :=
  runCycles_removed_at_first_terminal sampleEnv [outcomeInput 255 11, outcomeInput 255 22]
    (outcomeInput 254 33) inFlight 0 [1] (by decide) (by decide) (by decide) (by decide)
    (by simp [Expirations, TimeoutHelper.occured, TimeoutHelper.set, outcomeInput, inFlight,
      sampleState, sampleCmd])
    (by
      intro i hi
      simp only [List.mem_cons, List.mem_singleton, List.not_mem_nil, or_false] at hi
      rcases hi with h | h <;> subst h <;>
        exact ⟨0, rfl, fun _ => (by decide : sampleEnv.retryable 255)⟩)
    (Or.inr ⟨0, rfl, fun _ => (by decide : sampleEnv.terminal 254)⟩)

/-! ## Channel hopping -/

/-- The state machine either writes nothing and leaves the receive-channel index alone, or
makes one call of `sendEsbPacket` from a state with the same index and the same payloads
written. -/
theorem commandStep_cases (env : Env) (inp : CycleInput) (s : State)
    (hinv : s._busyFlag = true → s._commandQueue ≠ []) :
    (∃ s', commandStep env inp s = some s' ∧ s'._rxChIdx = s._rxChIdx ∧
      txLog s'.trace = txLog s.trace) ∨
    (∃ cmd s0, commandStep env inp s = some (sendEsbPacket env inp cmd s0) ∧
      s0._rxChIdx = s._rxChIdx ∧ txLog s0.trace = txLog s.trace) := by
  have hver : ∀ inv cmd, txLog (s.trace ++ [Event.verifyAllFragments inv cmd]) =
      txLog s.trace := by
    intro inv cmd
    simp [txLog_append, txLog]
  unfold commandStep
  split
  · rename_i hb
    have hbusy : s._busyFlag = true := by
      simp only [Bool.and_eq_true] at hb
      exact hb.1
    cases hq : s._commandQueue with
    | nil => exact absurd hq (hinv hbusy)
    | cons cmd rest =>
      simp only []
      cases hr : inp.getInverterBySerial (s.cmds cmd).targetAddress with
      | none => exact Or.inl ⟨_, rfl, rfl, rfl⟩
      | some inv =>
        simp only []
        split_ifs
        · simp only [sendLastPacketAgain, hq]
          exact Or.inr ⟨cmd, _, rfl, rfl, hver inv cmd⟩
        · exact Or.inl ⟨_, rfl, rfl, hver inv cmd⟩
        · exact Or.inl ⟨_, rfl, rfl, hver inv cmd⟩
        · exact Or.inl ⟨_, rfl, rfl, hver inv cmd⟩
        · simp only [sendRetransmitPacket, hq]
          exact Or.inr ⟨cmd, _, rfl, rfl, hver inv cmd⟩
        · exact Or.inl ⟨_, rfl, rfl, hver inv cmd⟩
  · split
    · cases hq : s._commandQueue with
      | nil => exact Or.inl ⟨s, rfl, rfl, rfl⟩
      | cons cmd rest =>
        simp only []
        cases hr : inp.getInverterBySerial (s.cmds cmd).targetAddress with
        | none => exact Or.inl ⟨_, rfl, rfl, rfl⟩
        | some inv =>
          refine Or.inr ⟨cmd, _, rfl, rfl, ?_⟩
          simp [txLog_append, txLog]
    · exact Or.inl ⟨s, rfl, rfl, rfl⟩

/-- C9 (transmit diversity), refuting the claim for a table of length 2: with the
transmit-channel table `[40, 40]`, two consecutive calls of `sendEsbPacket` both transmit on
channel 40. -/
theorem sendEsbPacket_same_channel_twice :
    1 < dupEnv._txChLst.length ∧
    txChannels 0 (sendEsbPacket dupEnv sampleInput 0
      (sendEsbPacket dupEnv sampleInput 0 sampleState)).trace = [40, 40] := by
  decide

theorem nextIdx_lt (len idx : Nat) (hlen : 0 < len) : nextIdx len idx < len := by
  unfold nextIdx
  split <;> omega

theorem nextIdx_ne (len idx : Nat) (hlen : 1 < len) (hidx : idx < len) :
    idx ≠ nextIdx len idx := by
  unfold nextIdx
  split <;> omega

/-- In a duplicate-free table of length greater than 1 the cyclically adjacent entries
differ. -/
theorem adjacentDistinct_of_nodup (l : List Nat) (hlen : 1 < l.length) (hnd : l.Nodup) :
    AdjacentDistinct l := by
  intro i hi heq
  have hj : nextIdx l.length i < l.length := nextIdx_lt _ _ (by omega)
  rw [List.getD_eq_getElem?_getD, List.getD_eq_getElem?_getD, List.getElem?_eq_getElem hi,
    List.getElem?_eq_getElem hj] at heq
  simp only [Option.getD_some] at heq
  exact nextIdx_ne _ _ hlen hi ((List.Nodup.getElem_inj_iff hnd).mp heq)

/-- C9 as amended: for every transmit-channel table of length greater than 1 and every
current index, two consecutive calls of `sendEsbPacket` select two different indices of the
table and write their payloads on the channels at these indices, `a` and then `b`; the two
channels are different whenever the cyclically adjacent entries of the table differ, in
particular whenever the table is duplicate-free. -/
theorem sendEsbPacket_consecutive_channels (env : Env) (inp1 inp2 : CycleInput)
    (c1 c2 : CmdPtr) (s : State) (ch : Nat) (hlen : 1 < env._txChLst.length) :
    ∃ a b, txChannels ch ((sendEsbPacket env inp2 c2 (sendEsbPacket env inp1 c1 s)).trace.drop
        s.trace.length) = [a, b] ∧
      a = env._txChLst.getD (sendEsbPacket env inp1 c1 s)._txChIdx 0 ∧
      b = env._txChLst.getD
        (sendEsbPacket env inp2 c2 (sendEsbPacket env inp1 c1 s))._txChIdx 0 ∧
      (sendEsbPacket env inp1 c1 s)._txChIdx ≠
        (sendEsbPacket env inp2 c2 (sendEsbPacket env inp1 c1 s))._txChIdx ∧
      (AdjacentDistinct env._txChLst → a ≠ b) ∧
      (env._txChLst.Nodup → a ≠ b) := by
  have h1 : (sendEsbPacket env inp1 c1 s)._txChIdx = nextIdx env._txChLst.length s._txChIdx := by
    rw [sendEsbPacket_txChIdx]
    rfl
  have h2 : (sendEsbPacket env inp2 c2 (sendEsbPacket env inp1 c1 s))._txChIdx =
      nextIdx env._txChLst.length (nextIdx env._txChLst.length s._txChIdx) := by
    rw [sendEsbPacket_txChIdx]
    simp only [getTxNxtChannel]
    rw [h1]
    rfl
  have hlt : nextIdx env._txChLst.length s._txChIdx < env._txChLst.length :=
    nextIdx_lt _ _ (by omega)
  have hadj : AdjacentDistinct env._txChLst →
      env._txChLst.getD (nextIdx env._txChLst.length s._txChIdx) 0 ≠
        env._txChLst.getD (nextIdx env._txChLst.length
          (nextIdx env._txChLst.length s._txChIdx)) 0 := fun h => h _ hlt
  refine ⟨env._txChLst.getD (nextIdx env._txChLst.length s._txChIdx) 0,
    env._txChLst.getD (nextIdx env._txChLst.length
      (nextIdx env._txChLst.length s._txChIdx)) 0, ?_, by rw [h1], by rw [h2], ?_, hadj, ?_⟩
  · rw [sendEsbPacket_trace, sendEsbPacket_trace, sendEsbPacket_txChIdx, List.append_assoc,
      List.drop_left]
    simp [sendTrace, txChannels, getTxNxtChannel, nextIdx]
  · rw [h1, h2]
    exact nextIdx_ne _ _ hlen hlt
  · intro hnd
    exact hadj (adjacentDistinct_of_nodup _ hlen hnd)

/-- C9 as amended, at the channel table of the sample environment, which is duplicate-free
and so has different cyclically adjacent entries. -/
theorem sendEsbPacket_consecutive_channels_witness :
    AdjacentDistinct sampleEnv._txChLst ∧ sampleEnv._txChLst.Nodup ∧
    ∃ a b, txChannels 0 ((sendEsbPacket sampleEnv sampleInput 1
        (sendEsbPacket sampleEnv sampleInput 0 sampleState)).trace.drop
          sampleState.trace.length) = [a, b] ∧
      a = sampleEnv._txChLst.getD (sendEsbPacket sampleEnv sampleInput 0 sampleState)._txChIdx 0 ∧
      b = sampleEnv._txChLst.getD (sendEsbPacket sampleEnv sampleInput 1
        (sendEsbPacket sampleEnv sampleInput 0 sampleState))._txChIdx 0 ∧
      (sendEsbPacket sampleEnv sampleInput 0 sampleState)._txChIdx ≠
        (sendEsbPacket sampleEnv sampleInput 1
          (sendEsbPacket sampleEnv sampleInput 0 sampleState))._txChIdx ∧
      (AdjacentDistinct sampleEnv._txChLst → a ≠ b) ∧
      (sampleEnv._txChLst.Nodup → a ≠ b) :=
  ⟨by decide, by decide,
    sendEsbPacket_consecutive_channels sampleEnv sampleInput sampleInput 0 1 sampleState 0
      (by decide)⟩

/-- C10 (receive hopping), refuting the claim: from the Idle state with a queued command
whose inverter resolves, a cycle without tick advances the receive-channel index once (0 to
1) and a cycle with tick advances it twice (0 to 2), because `sendEsbPacket` calls
`getRxNxtChannel` as well. -/
theorem loop_rxChIdx_advances_on_send :
    idleQueued._rxChIdx = 0 ∧ resolvedInput.tick = false ∧ tickInput.tick = true ∧
    (loop sampleEnv resolvedInput idleQueued).map (fun s => s._rxChIdx) = some 1 ∧
    (loop sampleEnv tickInput idleQueued).map (fun s => s._rxChIdx) = some 2 := by
  decide

/-- C10 as amended: in every cycle of an initialised radio the receive-channel index
advances once if the tick fires, and once more for each payload transmitted in the cycle
(`k`, at most one); capturing or validating fragments does not advance it. -/
theorem loop_rxChIdx (env : Env) (inp : CycleInput) (s : State)
    (hinit : s._isInitialized = true) (hinv : s._busyFlag = true → s._commandQueue ≠ []) :
    ∃ s' k, loop env inp s = some s' ∧ k ≤ 1 ∧
      (txLog s'.trace).length = (txLog s.trace).length + k ∧
      s'._rxChIdx = (nextIdx env._rxChLst.length)^[(if inp.tick then 1 else 0) + k]
        s._rxChIdx := by
  have hrx := phases_rxOnly env inp s
  have hlog := hrx.txLog_eq
  obtain ⟨_, hb, _, _, hq, _, _, _⟩ := hrx
  have hidx : (rxPhase env inp (tickPhase env inp s))._rxChIdx =
      (nextIdx env._rxChLst.length)^[if inp.tick then 1 else 0] s._rxChIdx := by
    rw [rxPhase_rxChIdx, tickPhase_rxChIdx]
    split <;> simp
  rw [loop_eq_commandStep env inp s hinit]
  rcases commandStep_cases env inp (rxPhase env inp (tickPhase env inp s))
    (by rw [hb, hq]; exact hinv) with ⟨s', h1, h2, h3⟩ | ⟨cmd, s0, h1, h2, h3⟩
  · refine ⟨s', 0, h1, by omega, by rw [h3, hlog]; rfl, ?_⟩
    rw [h2, hidx]
    rfl
  · refine ⟨_, 1, h1, le_refl _, ?_, ?_⟩
    · rw [sendEsbPacket_trace, txLog_append, txLog_sendTrace, h3, hlog]
      simp
    · rw [sendEsbPacket_rxChIdx, Function.iterate_succ_apply']
      simp only [getRxNxtChannel]
      rw [h2, hidx]
      rfl

/-- C10 as amended, at a concrete cycle: Idle, a queued command that resolves, tick firing. -/
theorem loop_rxChIdx_witness :
    ∃ s' k, loop sampleEnv tickInput idleQueued = some s' ∧ k ≤ 1 ∧
      (txLog s'.trace).length = (txLog idleQueued.trace).length + k ∧
      s'._rxChIdx = (nextIdx sampleEnv._rxChLst.length)^[(if tickInput.tick then 1 else 0) + k]
        idleQueued._rxChIdx :=
  loop_rxChIdx sampleEnv tickInput idleQueued (by decide) (by decide)

/-! ## Channel tables, initialisation and the send protocol -/

/-- C11 (cyclic index): for every non-empty channel table and every valid current index,
`getRxNxtChannel` leaves the index valid, sets it to the old index plus one, or to 0 when
the old index was the last one, and returns the table entry at the new index; and likewise
`getTxNxtChannel` on the transmit-channel table. -/
theorem getNxtChannel_cyclic (env : Env) (s t : State)
    (hrx : s._rxChIdx < env._rxChLst.length) (htx : t._txChIdx < env._txChLst.length) :
    ((getRxNxtChannel env s).2._rxChIdx < env._rxChLst.length ∧
      (getRxNxtChannel env s).2._rxChIdx =
        (if s._rxChIdx + 1 = env._rxChLst.length then 0 else s._rxChIdx + 1) ∧
      env._rxChLst.get? (getRxNxtChannel env s).2._rxChIdx = some (getRxNxtChannel env s).1) ∧
    ((getTxNxtChannel env t).2._txChIdx < env._txChLst.length ∧
      (getTxNxtChannel env t).2._txChIdx =
        (if t._txChIdx + 1 = env._txChLst.length then 0 else t._txChIdx + 1) ∧
      env._txChLst.get? (getTxNxtChannel env t).2._txChIdx = some (getTxNxtChannel env t).1) := by
  constructor
  · simp only [getRxNxtChannel]
    by_cases hl : s._rxChIdx + 1 = env._rxChLst.length
    · have h0 : 0 < env._rxChLst.length := by omega
      simp [hl, h0, List.getD_eq_getElem?_getD, List.getElem?_eq_getElem h0]
    · have h1 : s._rxChIdx + 1 < env._rxChLst.length := by omega
      have h2 : ¬ env._rxChLst.length ≤ s._rxChIdx + 1 := by omega
      simp [hl, h1, h2, List.getD_eq_getElem?_getD, List.getElem?_eq_getElem h1]
  · simp only [getTxNxtChannel]
    by_cases hl : t._txChIdx + 1 = env._txChLst.length
    · have h0 : 0 < env._txChLst.length := by omega
      simp [hl, h0, List.getD_eq_getElem?_getD, List.getElem?_eq_getElem h0]
    · have h1 : t._txChIdx + 1 < env._txChLst.length := by omega
      have h2 : ¬ env._txChLst.length ≤ t._txChIdx + 1 := by omega
      simp [hl, h1, h2, List.getD_eq_getElem?_getD, List.getElem?_eq_getElem h1]

/-- C11, at the last index of the five-entry tables of the sample environment: both indices
wrap to 0 and channel 3, the first entry, is returned. -/
theorem getNxtChannel_cyclic_witness :
    ((getRxNxtChannel sampleEnv atLastChannel).2._rxChIdx < sampleEnv._rxChLst.length ∧
      (getRxNxtChannel sampleEnv atLastChannel).2._rxChIdx =
        (if atLastChannel._rxChIdx + 1 = sampleEnv._rxChLst.length then 0
          else atLastChannel._rxChIdx + 1) ∧
      sampleEnv._rxChLst.get? (getRxNxtChannel sampleEnv atLastChannel).2._rxChIdx =
        some (getRxNxtChannel sampleEnv atLastChannel).1) ∧
    ((getTxNxtChannel sampleEnv atLastChannel).2._txChIdx < sampleEnv._txChLst.length ∧
      (getTxNxtChannel sampleEnv atLastChannel).2._txChIdx =
        (if atLastChannel._txChIdx + 1 = sampleEnv._txChLst.length then 0
          else atLastChannel._txChIdx + 1) ∧
      sampleEnv._txChLst.get? (getTxNxtChannel sampleEnv atLastChannel).2._txChIdx =
        some (getTxNxtChannel sampleEnv atLastChannel).1) :=
  getNxtChannel_cyclic sampleEnv atLastChannel atLastChannel (by decide) (by decide)

/-- C12 (inert when not initialised): when the transceiver is not connected, `init` leaves
`_isInitialized` false; and in every state with `_isInitialized` false, whatever the
interrupt flag, the driver's FIFO and the command queue hold, `loop` returns the state
unchanged, `setPALevel` returns it unchanged and `isConnected` is false. -/
theorem uninitialised_inert (env : Env) (s : State) (hconn : s.radio.chipConnected = false)
    (hinit : s._isInitialized = false) :
    (init env s)._isInitialized = false ∧
    ∀ (t : State) (inp : CycleInput) (paLevel : Nat), t._isInitialized = false →
      loop env inp t = some t ∧ setPALevel paLevel t = t ∧ isConnected t = false := by
  constructor
  · simp [init, State.call, hconn, hinit]
  · intro t inp paLevel ht
    simp [loop, setPALevel, isConnected, ht]

/-- C12, at a radio that is wired to a chip that does not answer. -/
theorem uninitialised_inert_witness :
    (init sampleEnv { uninitialised with radio := { sampleRadio with chipConnected := false } }
      )._isInitialized = false ∧
    ∀ (t : State) (inp : CycleInput) (paLevel : Nat), t._isInitialized = false →
      loop sampleEnv inp t = some t ∧ setPALevel paLevel t = t ∧ isConnected t = false :=
  uninitialised_inert sampleEnv
    { uninitialised with radio := { sampleRadio with chipConnected := false } }
    (by decide) (by decide)

/-- C15 (waiting): with a command in flight and its deadline not yet elapsed, `loop` returns
and the command queue, `_busyFlag`, every command object (so the head's send count), the
deadline and the transmit-channel index are unchanged, and no payload is written. -/
theorem loop_waiting_no_action (env : Env) (inp : CycleInput) (s : State)
    (hbusy : s._busyFlag = true) (hwait : s._rxTimeout.occured inp.now = false) :
    ∃ s', loop env inp s = some s' ∧ s'._commandQueue = s._commandQueue ∧
      s'._busyFlag = s._busyFlag ∧ s'.cmds = s.cmds ∧ s'._rxTimeout = s._rxTimeout ∧
      s'._txChIdx = s._txChIdx ∧ txLog s'.trace = txLog s.trace := by
  cases hinit : s._isInitialized with
  | false => exact ⟨s, by simp [loop, hinit], rfl, rfl, rfl, rfl, rfl, rfl⟩
  | true =>
    have hrx := phases_rxOnly env inp s
    have hlog := hrx.txLog_eq
    obtain ⟨_, hb, _, htx, hq, hto, hc, _⟩ := hrx
    refine ⟨rxPhase env inp (tickPhase env inp s), ?_, hq, hb, hc, hto, htx, hlog⟩
    rw [loop_eq_commandStep env inp s hinit]
    unfold commandStep
    rw [if_neg (by simp [hb, hbusy, hto, hwait]), if_neg (by simp [hb, hbusy])]

/-- C15, at a concrete state: command 0 in flight since time 0 with timeout 10, the cycle at
time 5. -/
theorem loop_waiting_no_action_witness :
    ∃ s', loop sampleEnv (outcomeInput 0 5) inFlight = some s' ∧
      s'._commandQueue = inFlight._commandQueue ∧ s'._busyFlag = inFlight._busyFlag ∧
      s'.cmds = inFlight.cmds ∧ s'._rxTimeout = inFlight._rxTimeout ∧
      s'._txChIdx = inFlight._txChIdx ∧ txLog s'.trace = txLog inFlight.trace :=
  loop_waiting_no_action sampleEnv (outcomeInput 0 5) inFlight (by decide) (by decide)

/-- C19 (send protocol): for every command and every driver state, the calls `sendEsbPacket`
adds to the trace are, in this order: increment the send count, stamp the router address,
stop listening, set the next transmit channel, open the writing pipe for the target, set the
hardware retries to 3 and 15, write the payload, set the hardware retries to 0 and 0, open
the reading pipe, set the next receive channel, start listening. Afterwards the driver is
listening, its retry setting is 0 and 0 and its reading pipe is the id of the local address,
whatever the result of the write. -/
theorem sendEsbPacket_protocol (env : Env) (inp : CycleInput) (cmd : CmdPtr) (s : State) :
    (sendEsbPacket env inp cmd s).trace = s.trace ++
      [Event.incrementSendCount cmd,
       Event.setRouterAddress cmd s._dtuSerial,
       Event.stopListening,
       Event.setChannel (env._txChLst.getD (nextIdx env._txChLst.length s._txChIdx) 0),
       Event.openWritingPipe (env.convertSerialToRadioId (s.cmds cmd).targetAddress),
       Event.setRetries 3 15,
       Event.write (env.getDataPayload
         (((s.cmds cmd).incrementSendCount).setRouterAddress s._dtuSerial)),
       Event.setRetries 0 0,
       Event.openReadingPipe 1 (env.convertSerialToRadioId s._dtuSerial),
       Event.setChannel (env._rxChLst.getD (nextIdx env._rxChLst.length s._rxChIdx) 0),
       Event.startListening] ∧
    (sendEsbPacket env inp cmd s).radio.listening = true ∧
    (sendEsbPacket env inp cmd s).radio.retries = (0, 0) ∧
    (sendEsbPacket env inp cmd s).radio.readingPipe =
      some (env.convertSerialToRadioId s._dtuSerial) ∧
    (sendEsbPacket env inp cmd s).radio.lastWriteOk = inp.writeOk := by
  refine ⟨?_, ?_, ?_, ?_, ?_⟩
  · rw [sendEsbPacket_trace]
    simp [sendTrace, nextIdx]
  all_goals
    simp [sendEsbPacket, State.call, openWritingPipe, openReadingPipe, getTxNxtChannel,
      getRxNxtChannel]

/-- C18 (local address), refuting the claim for the order `setDtuSerial` first: after
`setDtuSerial(5)` and then `init` with a connected transceiver, the stored address is 0 and
the reading pipe is open under the id of 0, not of 5. -/
theorem init_resets_dtuSerial :
    uninitialised.radio.chipConnected = true ∧
    (init sampleEnv (setDtuSerial sampleEnv 5 uninitialised))._isInitialized = true ∧
    (init sampleEnv (setDtuSerial sampleEnv 5 uninitialised))._dtuSerial = 0 ∧
    (init sampleEnv (setDtuSerial sampleEnv 5 uninitialised)).radio.readingPipe =
      some (sampleEnv.convertSerialToRadioId 0) ∧
    sampleEnv.convertSerialToRadioId 0 ≠ sampleEnv.convertSerialToRadioId 5 := by
  decide

/-- C18 as amended: `init` with a connected transceiver leaves the radio initialised, and for
every address `a`, `setDtuSerial(a)` called on an initialised radio stores `a` and opens the
reading pipe under the id derived from `a`; so the order `init`, then `setDtuSerial(a)`, ends
with address `a` and its pipe. In the other order `init` resets the stored address to 0 and
opens the pipe under the id derived from 0; and `setDtuSerial(a)` on a radio that is not
initialised only stores the address: nothing else changes, the driver is not touched and no
call is made. -/
theorem setDtuSerial_after_init (env : Env) (a : Nat) (s : State)
    (hconn : s.radio.chipConnected = true) :
    (init env s)._isInitialized = true ∧
    (∀ t : State, t._isInitialized = true →
      (setDtuSerial env a t)._dtuSerial = a ∧
      (setDtuSerial env a t).radio.readingPipe = some (env.convertSerialToRadioId a)) ∧
    (setDtuSerial env a (init env s))._dtuSerial = a ∧
    (setDtuSerial env a (init env s)).radio.readingPipe = some (env.convertSerialToRadioId a) ∧
    (init env (setDtuSerial env a s))._dtuSerial = 0 ∧
    (init env (setDtuSerial env a s)).radio.readingPipe =
      some (env.convertSerialToRadioId 0) ∧
    (∀ t : State, t._isInitialized = false →
      setDtuSerial env a t = { t with _dtuSerial := a } ∧
      (setDtuSerial env a t).radio = t.radio ∧ (setDtuSerial env a t).trace = t.trace) := by
  have hi : (init env s)._isInitialized = true := by
    simp [init, State.call, openReadingPipe, hconn]
  have hset : ∀ t : State, t._isInitialized = true →
      (setDtuSerial env a t)._dtuSerial = a ∧
      (setDtuSerial env a t).radio.readingPipe = some (env.convertSerialToRadioId a) := by
    intro t ht
    simp [setDtuSerial, HoymilesRadio.setDtuSerial, openReadingPipe, State.call, ht]
  refine ⟨hi, hset, (hset _ hi).1, (hset _ hi).2, ?_, ?_, ?_⟩
  · cases h : s._isInitialized <;>
      simp [init, setDtuSerial, HoymilesRadio.setDtuSerial, State.call, openReadingPipe,
        hconn, h]
  · cases h : s._isInitialized <;>
      simp [init, setDtuSerial, HoymilesRadio.setDtuSerial, State.call, openReadingPipe,
        hconn, h]
  · intro t ht
    simp [setDtuSerial, HoymilesRadio.setDtuSerial, ht]

/-- C18 as amended, at a wired, connected radio and address 5. -/
theorem setDtuSerial_after_init_witness :
    (init sampleEnv uninitialised)._isInitialized = true ∧
    (∀ t : State, t._isInitialized = true →
      (setDtuSerial sampleEnv 5 t)._dtuSerial = 5 ∧
      (setDtuSerial sampleEnv 5 t).radio.readingPipe =
        some (sampleEnv.convertSerialToRadioId 5)) ∧
    (setDtuSerial sampleEnv 5 (init sampleEnv uninitialised))._dtuSerial = 5 ∧
    (setDtuSerial sampleEnv 5 (init sampleEnv uninitialised)).radio.readingPipe =
      some (sampleEnv.convertSerialToRadioId 5) ∧
    (init sampleEnv (setDtuSerial sampleEnv 5 uninitialised))._dtuSerial = 0 ∧
    (init sampleEnv (setDtuSerial sampleEnv 5 uninitialised)).radio.readingPipe =
      some (sampleEnv.convertSerialToRadioId 0) ∧
    (∀ t : State, t._isInitialized = false →
      setDtuSerial sampleEnv 5 t = { t with _dtuSerial := 5 } ∧
      (setDtuSerial sampleEnv 5 t).radio = t.radio ∧
      (setDtuSerial sampleEnv 5 t).trace = t.trace) :=
  setDtuSerial_after_init sampleEnv 5 uninitialised (by decide)

/-! ## Capture and validation -/

theorem captureBody_read (env : Env) (s : State) (p : RxPacket) (rest : List RxPacket)
    (hf : s.radio.rxFifo = p :: rest)
    (hroom : ¬ s._rxBuffer.length > env.FRAGMENT_BUFFER_SIZE) :
    captureBody env s =
      { s with radio := { s.radio with rxFifo := rest },
               trace := s.trace ++ [Event.read (capturedFragment env s.radio.channel p).len],
               _rxBuffer := s._rxBuffer ++ [capturedFragment env s.radio.channel p] } := by
  unfold captureBody
  rw [if_pos (by simpa using hroom)]
  simp [RF24.read, RF24.getDynamicPayloadSize, hf, capturedFragment]

theorem capturedFragment_len_le (env : Env) (channel : Nat) (p : RxPacket) :
    (capturedFragment env channel p).len ≤ env.MAX_RF_PAYLOAD_SIZE := by
  simp only [capturedFragment]
  split <;> omega

/-- The capture loop appends to the buffer the fragments built from the first payloads of
the receive FIFO, in their order, and makes receive-side driver calls only. -/
theorem captureLoop_appends (env : Env) (n : Nat) (s : State) :
    ∃ k radio new, captureLoop env n s =
      { s with _rxBuffer := s._rxBuffer ++
                 (s.radio.rxFifo.take k).map (capturedFragment env s.radio.channel),
               radio := radio, trace := s.trace ++ new } ∧
      radio.channel = s.radio.channel ∧
      (∀ e ∈ new, e.isAddRx = false) := by
  induction n generalizing s with
  | zero => exact ⟨0, s.radio, [], by simp [captureLoop], rfl, by simp⟩
  | succ n ih =>
    unfold captureLoop
    cases hf : s.radio.rxFifo with
    | nil => exact ⟨0, s.radio, [], by simp [RF24.available, hf], rfl, by simp⟩
    | cons p rest =>
      have hav : s.radio.available = true := by simp [RF24.available, hf]
      rw [if_pos hav]
      by_cases hroom : s._rxBuffer.length > env.FRAGMENT_BUFFER_SIZE
      · have hb : captureBody env s = s.call Event.flush_rx RF24.flush_rx := by
          unfold captureBody
          rw [if_neg (by simpa using hroom)]
        obtain ⟨k, radio, new, h, hch, hnew⟩ := ih (s.call Event.flush_rx RF24.flush_rx)
        refine ⟨0, radio, Event.flush_rx :: new, ?_, ?_, ?_⟩
        · rw [hb, h]
          simp [State.call, RF24.flush_rx]
        · rw [hch]; rfl
        · intro e he
          rcases List.mem_cons.mp he with h1 | h1
          · subst h1; rfl
          · exact hnew e h1
      · have hb := captureBody_read env s p rest hf hroom
        obtain ⟨k, radio, new, h, hch, hnew⟩ := ih (captureBody env s)
        refine ⟨k + 1, radio,
          Event.read (capturedFragment env s.radio.channel p).len :: new, ?_, ?_, ?_⟩
        · rw [h, hb]
          simp [List.take_succ_cons]
        · rw [hch, hb]
        · intro e he
          rcases List.mem_cons.mp he with h1 | h1
          · subst h1; rfl
          · exact hnew e h1

theorem sendEsbPacket_rxSide (env : Env) (inp : CycleInput) (cmd : CmdPtr) (s : State) :
    (sendEsbPacket env inp cmd s)._rxBuffer = s._rxBuffer ∧
    (sendEsbPacket env inp cmd s).radio.rxFifo = s.radio.rxFifo ∧
    (sendEsbPacket env inp cmd s)._packetReceived = s._packetReceived := by
  refine ⟨?_, ?_, ?_⟩ <;>
    simp [sendEsbPacket, State.call, openWritingPipe, openReadingPipe, getTxNxtChannel,
      getRxNxtChannel]

theorem isAddRx_sendTrace (env : Env) (cmd : CmdPtr) (c : Command) (dtu rxIdx txIdx : Nat)
    (e : Event) (he : e ∈ sendTrace env cmd c dtu rxIdx txIdx) : e.isAddRx = false := by
  simp [sendTrace] at he
  rcases he with h | h | h | h | h | h | h | h | h | h | h <;> subst h <;> rfl

/-- The command state machine leaves the receive buffer, the driver's FIFO and the interrupt
flag alone and hands no fragment to an inverter. -/
theorem commandStep_rxSide (env : Env) (inp : CycleInput) (s s' : State)
    (h : commandStep env inp s = some s') :
    s'._rxBuffer = s._rxBuffer ∧ s'.radio.rxFifo = s.radio.rxFifo ∧
    s'._packetReceived = s._packetReceived ∧
    ∃ new, s'.trace = s.trace ++ new ∧ ∀ e ∈ new, e.isAddRx = false := by
  have hsend : ∀ (cmd : CmdPtr) (s0 : State) (pre : List Event),
      some (sendEsbPacket env inp cmd s0) = some s' →
      s0._rxBuffer = s._rxBuffer → s0.radio.rxFifo = s.radio.rxFifo →
      s0._packetReceived = s._packetReceived → s0.trace = s.trace ++ pre →
      (∀ e ∈ pre, e.isAddRx = false) →
      s'._rxBuffer = s._rxBuffer ∧ s'.radio.rxFifo = s.radio.rxFifo ∧
      s'._packetReceived = s._packetReceived ∧
      ∃ new, s'.trace = s.trace ++ new ∧ ∀ e ∈ new, e.isAddRx = false := by
    intro cmd s0 pre heq h1 h2 h3 h4 h5
    cases heq
    obtain ⟨g1, g2, g3⟩ := sendEsbPacket_rxSide env inp cmd s0
    refine ⟨g1.trans h1, g2.trans h2, g3.trans h3, pre ++ sendTrace env cmd (s0.cmds cmd)
      s0._dtuSerial s0._rxChIdx s0._txChIdx, ?_, ?_⟩
    · rw [sendEsbPacket_trace, h4, List.append_assoc]
    · intro e he
      rcases List.mem_append.mp he with h | h
      · exact h5 e h
      · exact isAddRx_sendTrace env cmd _ _ _ _ e h
  have hpop : ∀ (s0 : State) (pre : List Event),
      some (popCommand s0) = some s' →
      s0._rxBuffer = s._rxBuffer → s0.radio.rxFifo = s.radio.rxFifo →
      s0._packetReceived = s._packetReceived → s0.trace = s.trace ++ pre →
      (∀ e ∈ pre, e.isAddRx = false) →
      s'._rxBuffer = s._rxBuffer ∧ s'.radio.rxFifo = s.radio.rxFifo ∧
      s'._packetReceived = s._packetReceived ∧
      ∃ new, s'.trace = s.trace ++ new ∧ ∀ e ∈ new, e.isAddRx = false := by
    intro s0 pre heq h1 h2 h3 h4 h5
    cases heq
    exact ⟨h1, h2, h3, pre, h4, h5⟩
  have hver : ∀ inv cmd, ∀ e ∈ [Event.verifyAllFragments inv cmd], e.isAddRx = false := by
    intro inv cmd e he
    simp at he
    subst he
    rfl
  unfold commandStep at h
  split at h
  · cases hq : s._commandQueue with
    | nil => simp [hq] at h
    | cons cmd rest =>
      simp only [hq] at h
      cases hr : inp.getInverterBySerial (s.cmds cmd).targetAddress with
      | none =>
        simp only [hr] at h
        exact hpop s [] h rfl rfl rfl (by simp) (by simp)
      | some inv =>
        simp only [hr] at h
        split_ifs at h
        · simp only [sendLastPacketAgain, hq] at h
          exact hsend cmd _ [Event.verifyAllFragments inv cmd] h rfl rfl rfl rfl (hver inv cmd)
        · exact hpop _ [Event.verifyAllFragments inv cmd] h rfl rfl rfl rfl (hver inv cmd)
        · exact hpop _ [Event.verifyAllFragments inv cmd] h rfl rfl rfl rfl (hver inv cmd)
        · exact hpop _ [Event.verifyAllFragments inv cmd] h rfl rfl rfl rfl (hver inv cmd)
        · simp only [sendRetransmitPacket, hq] at h
          exact hsend cmd _ [Event.verifyAllFragments inv cmd] h rfl rfl rfl rfl (hver inv cmd)
        · exact hpop _ [Event.verifyAllFragments inv cmd] h rfl rfl rfl rfl (hver inv cmd)
  · split at h
    · cases hq : s._commandQueue with
      | nil =>
        simp only [hq] at h
        cases h
        exact ⟨rfl, rfl, rfl, [], by simp, by simp⟩
      | cons cmd rest =>
        simp only [hq] at h
        cases hr : inp.getInverterBySerial (s.cmds cmd).targetAddress with
        | none =>
          simp only [hr] at h
          cases h
          exact ⟨rfl, rfl, rfl, [], by simp, by simp⟩
        | some inv =>
          simp only [hr] at h
          refine hsend cmd _ [Event.clearRxFragmentBuffer inv] h rfl rfl rfl rfl ?_
          intro e he
          simp at he
          subst he
          rfl
    · cases h
      exact ⟨rfl, rfl, rfl, [], by simp, by simp⟩

theorem tickPhase_rxSide (env : Env) (inp : CycleInput) (s : State) :
    (tickPhase env inp s)._rxBuffer = s._rxBuffer ∧
    (tickPhase env inp s).radio.rxFifo = s.radio.rxFifo ∧
    (tickPhase env inp s)._packetReceived = s._packetReceived ∧
    ∃ new, (tickPhase env inp s).trace = s.trace ++ new ∧ ∀ e ∈ new, e.isAddRx = false := by
  unfold tickPhase
  split
  · refine ⟨rfl, rfl, rfl,
      [Event.stopListening, Event.setChannel (getRxNxtChannel env s).1, Event.startListening],
      ?_, ?_⟩
    · simp [switchRxCh, getRxNxtChannel, State.call]
    · simp [Event.isAddRx]
  · exact ⟨rfl, rfl, rfl, [], by simp, by simp⟩

/-- The capture branch: the buffer is extended by fragments built from the first payloads of
the FIFO, the driver is drained and the interrupt flag cleared. -/
theorem capture_spec (env : Env) (s : State) :
    ∃ k new, (capture env s)._rxBuffer = s._rxBuffer ++
        (s.radio.rxFifo.take k).map (capturedFragment env s.radio.channel) ∧
      (capture env s)._packetReceived = false ∧
      (capture env s).radio.available = false ∧
      (capture env s).trace = s.trace ++ new ∧ ∀ e ∈ new, e.isAddRx = false := by
  obtain ⟨k, radio, new, h, _, hnew⟩ := captureLoop_appends env s.radio.rxFifo.length s
  have hd := captureLoop_drains env s.radio.rxFifo.length s (le_refl _)
  refine ⟨k, new, ?_, rfl, hd, ?_, hnew⟩
  · simp only [capture]
    rw [h]
  · simp only [capture]
    rw [h]

theorem validate_rxBuffer (env : Env) (inp : CycleInput) (s : State) :
    (validate env inp s)._rxBuffer = s._rxBuffer.tail := by
  unfold validate
  split
  · rename_i h
    rw [List.getLast?_eq_none_iff.mp h]
    rfl
  · split
    · split <;> rfl
    · rfl

/-- Under the invariant that a set `_busyFlag` comes with a non-empty queue, `loop` returns
and the invariant holds again. -/
theorem loop_returns (env : Env) (inp : CycleInput) (s : State)
    (hinv : s._busyFlag = true → s._commandQueue ≠ []) :
    ∃ s', loop env inp s = some s' ∧ (s'._busyFlag = true → s'._commandQueue ≠ []) := by
  cases hinit : s._isInitialized with
  | false => exact ⟨s, by simp [loop, hinit], hinv⟩
  | true =>
    obtain ⟨_, hb, _, _, hq, _, _, _⟩ := phases_rxOnly env inp s
    obtain ⟨s', hs', _, _, _, h4⟩ :=
      commandStep_head_only env inp (rxPhase env inp (tickPhase env inp s))
        (by rw [hb, hq]; exact hinv)
    refine ⟨s', by rw [loop_eq_commandStep env inp s hinit, hs'], ?_⟩
    intro hbusy
    obtain ⟨h5, h6⟩ := h4 hbusy
    rw [h5]
    exact h6

/-- A cycle of an initialised radio entered with the interrupt flag set. -/
theorem loop_capture_cycle (env : Env) (inp : CycleInput) (s s' : State)
    (hinit : s._isInitialized = true) (hflag : s._packetReceived = true)
    (h : loop env inp s = some s') :
    ∃ k new, s'._rxBuffer = s._rxBuffer ++
        (s.radio.rxFifo.take k).map (capturedFragment env (tickPhase env inp s).radio.channel) ∧
      s'._packetReceived = false ∧ s'.radio.available = false ∧
      s'.trace = s.trace ++ new ∧ ∀ e ∈ new, e.isAddRx = false := by
  rw [loop_eq_commandStep env inp s hinit] at h
  obtain ⟨t1, t2, t3, n1, t4, t5⟩ := tickPhase_rxSide env inp s
  have hrx : rxPhase env inp (tickPhase env inp s) = capture env (tickPhase env inp s) := by
    unfold rxPhase
    rw [if_pos (by rw [t3, hflag])]
  rw [hrx] at h
  obtain ⟨k, n2, c1, c2, c3, c4, c5⟩ := capture_spec env (tickPhase env inp s)
  obtain ⟨m1, m2, m3, n3, m4, m5⟩ := commandStep_rxSide env inp _ s' h
  refine ⟨k, n1 ++ n2 ++ n3, ?_, ?_, ?_, ?_, ?_⟩
  · rw [m1, c1, t1, t2]
  · rw [m3, c2]
  · unfold RF24.available at c3 ⊢
    rw [m2]
    exact c3
  · rw [m4, c4, t4, List.append_assoc, List.append_assoc, List.append_assoc]
  · intro e he
    rcases List.mem_append.mp he with h1 | h1
    · rcases List.mem_append.mp h1 with h2 | h2
      · exact t5 e h2
      · exact c5 e h2
    · exact m5 e h1

/-- No cycle puts a fragment longer than `MAX_RF_PAYLOAD_SIZE` into the buffer. -/
theorem loop_rxBuffer_len (env : Env) (inp : CycleInput) (s s' : State)
    (hlen : ∀ g ∈ s._rxBuffer, g.len ≤ env.MAX_RF_PAYLOAD_SIZE)
    (h : loop env inp s = some s') : ∀ g ∈ s'._rxBuffer, g.len ≤ env.MAX_RF_PAYLOAD_SIZE := by
  cases hinit : s._isInitialized with
  | false =>
    simp [loop, hinit] at h
    rw [← h]
    exact hlen
  | true =>
    cases hflag : s._packetReceived with
    | true =>
      obtain ⟨k, _, hb, _⟩ := loop_capture_cycle env inp s s' hinit hflag h
      intro g hg
      rw [hb] at hg
      rcases List.mem_append.mp hg with h1 | h1
      · exact hlen g h1
      · obtain ⟨p, _, hp⟩ := List.mem_map.mp h1
        rw [← hp]
        exact capturedFragment_len_le env _ p
    | false =>
      rw [loop_eq_commandStep env inp s hinit] at h
      obtain ⟨t1, _, t3, _⟩ := tickPhase_rxSide env inp s
      obtain ⟨m1, _⟩ := commandStep_rxSide env inp _ s' h
      have hrx : rxPhase env inp (tickPhase env inp s) =
          validate env inp (tickPhase env inp s) := by
        unfold rxPhase
        rw [if_neg (by rw [t3, hflag]; simp)]
      intro g hg
      rw [m1, hrx, validate_rxBuffer, t1] at hg
      exact hlen g (List.mem_of_mem_tail hg)

/-- C13 (capture has priority): in every cycle of an initialised radio entered with
`_packetReceived` set, `loop` returns; the buffer before the cycle is a prefix of the buffer
after it, so no buffered fragment is removed; no call made in the cycle hands a fragment to
an inverter; afterwards the driver has nothing available and the flag is clear. Hence a
cycle after which the buffer is shorter was entered with the flag clear. -/
theorem loop_flag_set_captures_only (env : Env) (inp : CycleInput) (s : State)
    (hinit : s._isInitialized = true) (hflag : s._packetReceived = true)
    (hinv : s._busyFlag = true → s._commandQueue ≠ []) :
    (∃ s', loop env inp s = some s' ∧ s._rxBuffer <+: s'._rxBuffer ∧
      (∃ new, s'.trace = s.trace ++ new ∧ ∀ e ∈ new, e.isAddRx = false) ∧
      s'.radio.available = false ∧ s'._packetReceived = false) ∧
    (∀ (t t' : State) (i : CycleInput), t._isInitialized = true → loop env i t = some t' →
      t'._rxBuffer.length < t._rxBuffer.length → t._packetReceived = false) := by
  constructor
  · obtain ⟨s', hs', _⟩ := loop_returns env inp s hinv
    obtain ⟨k, new, h1, h2, h3, h4, h5⟩ := loop_capture_cycle env inp s s' hinit hflag hs'
    exact ⟨s', hs', ⟨_, h1.symm⟩, ⟨new, h4, h5⟩, h3, h2⟩
  · intro t t' i hti hstep hshort
    cases hf : t._packetReceived with
    | false => rfl
    | true =>
      obtain ⟨k, new, h1, _⟩ := loop_capture_cycle env i t t' hti hf hstep
      rw [h1] at hshort
      simp at hshort

/-- C13, at a concrete state: flag set, one fragment buffered, two payloads available and a
command in flight. -/
theorem loop_flag_set_captures_only_witness :
    (∃ s', loop sampleEnv (outcomeInput 0 5) capturing = some s' ∧
      capturing._rxBuffer <+: s'._rxBuffer ∧
      (∃ new, s'.trace = capturing.trace ++ new ∧ ∀ e ∈ new, e.isAddRx = false) ∧
      s'.radio.available = false ∧ s'._packetReceived = false) ∧
    (∀ (t t' : State) (i : CycleInput), t._isInitialized = true →
      loop sampleEnv i t = some t' →
      t'._rxBuffer.length < t._rxBuffer.length → t._packetReceived = false) :=
  loop_flag_set_captures_only sampleEnv (outcomeInput 0 5) capturing (by decide) (by decide)
    (by decide)

/-- C14 (discarding), the code with a good fragment 1 buffered before a corrupt fragment 2
and the interrupt flag clear: the first cycle examines fragment 2 (`back()`), hands nothing
to an inverter and removes fragment 1 (`pop()`), so the corrupt fragment is still buffered
and the good one is gone; the second cycle examines fragment 2 again and removes it.
Fragment 1, whose checksum is good and whose inverter resolves, is never handed over. -/
theorem loop_validate_good_before_corrupt :
    crcEnv.checkFragmentCrc (sampleFragment 1) = true ∧
    crcEnv.checkFragmentCrc (sampleFragment 2) = false ∧
    resolvedInput.getInverterByFragment (sampleFragment 1) = some 0 ∧
    twoBuffered._rxBuffer = [sampleFragment 1, sampleFragment 2] ∧
    (loop crcEnv resolvedInput twoBuffered).map (fun s => (s._rxBuffer, s.trace)) =
      some ([sampleFragment 2], []) ∧
    ((loop crcEnv resolvedInput twoBuffered).bind (loop crcEnv resolvedInput)).map
        (fun s => (s._rxBuffer, s.trace)) = some ([], []) := by
  decide

/-- C16 (length clamp): when the capture step stores the payload at the top of the receive
FIFO, the stored fragment has `len` equal to the minimum of the reported size and
`MAX_RF_PAYLOAD_SIZE`, the driver is asked to read exactly `len` bytes, which fill the start
of the fragment while the rest keeps the `0xcc` fill, and the fragment records the driver's
current channel. Hence no cycle puts a fragment with `len` above `MAX_RF_PAYLOAD_SIZE` into
the buffer: if all buffered fragments respect the bound before a cycle, they do after it. -/
theorem capture_step_clamps_len (env : Env) (s : State) (p : RxPacket) (rest : List RxPacket)
    (hf : s.radio.rxFifo = p :: rest)
    (hroom : ¬ s._rxBuffer.length > env.FRAGMENT_BUFFER_SIZE) :
    (∃ f, (captureBody env s)._rxBuffer = s._rxBuffer ++ [f] ∧
      f.len = min p.dynamicPayloadSize env.MAX_RF_PAYLOAD_SIZE ∧
      (captureBody env s).trace = s.trace ++ [Event.read f.len] ∧
      f.fragment = (List.range f.len).map (fun i => p.payload.getD i 0) ++
        List.replicate (env.MAX_RF_PAYLOAD_SIZE - f.len) 0xcc ∧
      f.channel = s.radio.channel ∧
      (captureBody env s).radio.rxFifo = rest) ∧
    (∀ (t t' : State) (inp : CycleInput),
      (∀ g ∈ t._rxBuffer, g.len ≤ env.MAX_RF_PAYLOAD_SIZE) → loop env inp t = some t' →
      ∀ g ∈ t'._rxBuffer, g.len ≤ env.MAX_RF_PAYLOAD_SIZE) := by
  constructor
  · refine ⟨capturedFragment env s.radio.channel p, ?_, ?_, ?_, ?_, rfl, ?_⟩
    · rw [captureBody_read env s p rest hf hroom]
    · simp only [capturedFragment]
      split
      · omega
      · omega
    · rw [captureBody_read env s p rest hf hroom]
    · simp [capturedFragment]
    · rw [captureBody_read env s p rest hf hroom]
  · intro t t' inp hlen h
    exact loop_rxBuffer_len env inp t t' hlen h

/-- C16, at a payload whose reported size, 40, exceeds the maximum of 32. -/
theorem capture_step_clamps_len_witness :
    (∃ f, (captureBody sampleEnv
        { sampleState with radio := { sampleRadio with rxFifo := [⟨40, [7]⟩] } })._rxBuffer =
        ({ sampleState with radio := { sampleRadio with rxFifo := [⟨40, [7]⟩] } } : State
          )._rxBuffer ++ [f] ∧
      f.len = min (⟨40, [7]⟩ : RxPacket).dynamicPayloadSize sampleEnv.MAX_RF_PAYLOAD_SIZE ∧
      (captureBody sampleEnv
        { sampleState with radio := { sampleRadio with rxFifo := [⟨40, [7]⟩] } }).trace =
        ({ sampleState with radio := { sampleRadio with rxFifo := [⟨40, [7]⟩] } } : State
          ).trace ++ [Event.read f.len] ∧
      f.fragment = (List.range f.len).map (fun i => (⟨40, [7]⟩ : RxPacket).payload.getD i 0) ++
        List.replicate (sampleEnv.MAX_RF_PAYLOAD_SIZE - f.len) 0xcc ∧
      f.channel = ({ sampleState with radio := { sampleRadio with rxFifo := [⟨40, [7]⟩] } } :
        State).radio.channel ∧
      (captureBody sampleEnv
        { sampleState with radio := { sampleRadio with rxFifo := [⟨40, [7]⟩] } }).radio.rxFifo =
        []) ∧
    (∀ (t t' : State) (inp : CycleInput),
      (∀ g ∈ t._rxBuffer, g.len ≤ sampleEnv.MAX_RF_PAYLOAD_SIZE) →
      loop sampleEnv inp t = some t' →
      ∀ g ∈ t'._rxBuffer, g.len ≤ sampleEnv.MAX_RF_PAYLOAD_SIZE) :=
  capture_step_clamps_len sampleEnv
    { sampleState with radio := { sampleRadio with rxFifo := [⟨40, [7]⟩] } } ⟨40, [7]⟩ []
    rfl (by decide)

/-- C17 (existing entries survive): in every capture cycle of an initialised radio, also one
that overflows the bound, `loop` returns and the buffer afterwards is the buffer before,
unchanged and in the same order, followed by the fragments built from the first `k` payloads
that were available, in their order; the payloads beyond `k` are the ones discarded. -/
theorem loop_capture_keeps_buffer (env : Env) (inp : CycleInput) (s : State)
    (hinit : s._isInitialized = true) (hflag : s._packetReceived = true)
    (hinv : s._busyFlag = true → s._commandQueue ≠ []) :
    ∃ s' k, loop env inp s = some s' ∧
      s'._rxBuffer = s._rxBuffer ++
        (s.radio.rxFifo.take k).map (capturedFragment env (tickPhase env inp s).radio.channel) ∧
      s._rxBuffer <+: s'._rxBuffer := by
  obtain ⟨s', hs', _⟩ := loop_returns env inp s hinv
  obtain ⟨k, new, h1, _⟩ := loop_capture_cycle env inp s s' hinit hflag hs'
  exact ⟨s', k, hs', h1, ⟨_, h1.symm⟩⟩

/-- C17, at the overflow scenario: bound 4, six payloads available. -/
theorem loop_capture_keeps_buffer_witness :
    ∃ s' k, loop sampleEnv sampleInput sixAvailable = some s' ∧
      s'._rxBuffer = sixAvailable._rxBuffer ++
        (sixAvailable.radio.rxFifo.take k).map
          (capturedFragment sampleEnv (tickPhase sampleEnv sampleInput sixAvailable).radio.channel) ∧
      sixAvailable._rxBuffer <+: s'._rxBuffer :=
  loop_capture_keeps_buffer sampleEnv sampleInput sixAvailable (by decide) (by decide)
    (by decide)

/-- C20 (no read of an empty queue): in every state reached from an initial state (Idle,
empty queue) by `enqueue` and `loop` steps, interleaved with interrupts and arriving
payloads, a set `_busyFlag` comes with a non-empty command queue, and every call of `loop`
returns: `front()` is never read on an empty queue. -/
theorem reachable_busy_queue_nonempty (env : Env) (s : State) (h : Reachable env s) :
    (s._busyFlag = true → s._commandQueue ≠ []) ∧
    ∀ inp : CycleInput, ∃ s', loop env inp s = some s' := by
  have hinv : s._busyFlag = true → s._commandQueue ≠ [] := by
    induction h with
    | initial s hidle hq =>
      intro hb
      rw [hidle] at hb
      cases hb
    | enqueue s p c _ ih =>
      intro _
      simp [enqueue]
    | loop s s' inp _ hstep ih =>
      obtain ⟨s2, h1, h2⟩ := loop_returns env inp s ih
      rw [hstep] at h1
      cases h1
      exact h2
    | handleIntr s _ ih => exact ih
    | receive s p _ ih => exact ih
  refine ⟨hinv, fun inp => ?_⟩
  obtain ⟨s', hs', _⟩ := loop_returns env inp s hinv
  exact ⟨s', hs'⟩

/-- C20, at the state reached by enqueueing one command on the Idle sample radio and
running one cycle, which sends it: `_busyFlag` is set and the queue holds the command. -/
theorem reachable_busy_queue_nonempty_witness :
    (afterFirstSend._busyFlag = true → afterFirstSend._commandQueue ≠ []) ∧
    ∀ inp : CycleInput, ∃ s', loop sampleEnv inp afterFirstSend = some s' :=
  reachable_busy_queue_nonempty sampleEnv afterFirstSend
    (Reachable.loop oneEnqueued afterFirstSend resolvedInput
      (Reachable.enqueue sampleState 0 sampleCmd (Reachable.initial sampleState rfl rfl)) rfl)
end HoymilesRadio_NRF
